import Mathlib

/-!
# cleveng/kits : the Alibaba product crawler (`alibaba.go`, `init.go`)

A shallow embedding of `Alibaba.GetURL`, `Alibaba.GetDetail`, `downloadFile`
and `main`, and the properties of the written specification proved (or
refuted) over it.

Conventions of the embedding

* A Go `string` is a Lean `String`; the byte-level scans of the source look
  only for ASCII bytes (`?`, `/`, `=`, white space, the marker), so they are
  run over the character list.
* A value decoded by `encoding/json` into `any` is a `JSON` tree.  A Go
  `map[string]any` is an association list read by `lookup` (first binding).
* A Go call that may return an error or panic yields a `Res`.
* Library code (HTTP client, HTML parser and serialiser, JSON syntax,
  `%0.0f` formatting) is a field of `Env`.
* A goroutine started with `go downloadFile(u, d)` is recorded as the pair
  `(u, d)` in `World.spawned`; console output and the wait group are not
  recorded.
-/

namespace Kits

/-! ## Decoded JSON documents -/

/-- The float64 carried by a decoded JSON number, kept as a natural-number
code of the value; how it prints is left to `Env.fmt0f`. -/
structure Float64 where
  bits : Nat
deriving DecidableEq, Repr

/-- The values `encoding/json` stores in an `any`: `nil`, `bool`, `float64`,
`string`, `[]any`, `map[string]any`. -/
inductive JSON where
  | null
  | bool (b : Bool)
  | num (f : Float64)
  | str (s : String)
  | arr (items : List JSON)
  | obj (fields : List (String × JSON))

/-- A Go `map[string]any`. -/
abbrev Obj := List (String × JSON)

/-- The map read `m[k]` with its presence flag: `none` when the key is absent. -/
def lookup (k : String) : Obj → Option JSON
  | [] => none
  | (k', v) :: rest => if k' = k then some v else lookup k rest

/-- Outcome of a Go call: a value, a returned `error`, or a runtime panic. -/
inductive Res (α : Type) where
  | ok (a : α)
  | err (msg : String)
  | panic
deriving DecidableEq, Repr

/-- Sequencing of Go statements: the first error or panic ends the function. -/
def Res.bind {α β : Type} (r : Res α) (f : α → Res β) : Res β :=
  match r with
  | .ok a => f a
  | .err e => .err e
  | .panic => .panic

instance : Monad Res where
  pure := Res.ok
  bind := Res.bind

/-- The assertion `x.(map[string]any)` on the result of a map read. -/
def asMap : Option JSON → Res Obj
  | some (.obj m) => .ok m
  | _ => .panic

/-- The assertion `x.([]any)`. -/
def asSlice : Option JSON → Res (List JSON)
  | some (.arr xs) => .ok xs
  | _ => .panic

/-- The assertion `x.(string)`. -/
def asString : Option JSON → Res String
  | some (.str s) => .ok s
  | _ => .panic

/-- The assertion `x.(float64)`. -/
def asFloat : Option JSON → Res Float64
  | some (.num f) => .ok f
  | _ => .panic

/-! ## Media selection (`GetURL`, lines 139-171) -/

/-- The preference list of the `video` case. -/
def videoSizes : List String := ["hd", "hd_265", "sd_265", "ld", "sd"]

/-- The preference list of the `image` case. -/
def imageSizes : List String := ["big", "normal", "small", "thumb"]

/-- The expression `item.(map[string]any)["videoUrl"].(string)` of line 151. -/
def videoTierURL (item : JSON) : Res String :=
  match asMap (some item) with
  | .ok m => asString (lookup "videoUrl" m)
  | .err e => .err e
  | .panic => .panic

/-- The expression `item.(string)` of line 165. -/
def imageTierURL (item : JSON) : Res String :=
  asString (some item)

/-- The loop of lines 149-154: the first size whose key is in the map decides,
its value is asserted to be a map holding a string `videoUrl`; with no size
present `videoUrl` keeps its zero value. -/
def pickVideo (video : Obj) : List String → Res String
  | [] => .ok ""
  | size :: rest =>
    match lookup size video with
    | some item => videoTierURL item
    | none => pickVideo video rest

/-- The loop of lines 163-168: the first size whose key is in the map decides,
its value is asserted to be a string. -/
def pickImage (image : Obj) : List String → Res String
  | [] => .ok ""
  | size :: rest =>
    match lookup size image with
    | some item => imageTierURL item
    | none => pickImage image rest

/-- One iteration of the media loop: the URL handed to `go downloadFile`, or
`none` when the type is neither `video` nor `image`. -/
def mediumURL (v : JSON) : Res (Option String) :=
  match asMap (some v) with
  | .ok medium =>
    match asString (lookup "type" medium) with
    | .ok ty =>
      if ty = "video" then
        match asMap (lookup "videoUrl" medium) with
        | .ok video =>
          match pickVideo video videoSizes with
          | .ok u => .ok (some u)
          | .err e => .err e
          | .panic => .panic
        | .err e => .err e
        | .panic => .panic
      else if ty = "image" then
        match asMap (lookup "imageUrl" medium) with
        | .ok image =>
          match pickImage image imageSizes with
          | .ok u => .ok (some u)
          | .err e => .err e
          | .panic => .panic
        | .err e => .err e
        | .panic => .panic
      else .ok none
    | .err e => .err e
    | .panic => .panic
  | .err e => .err e
  | .panic => .panic

/-! ## File names (`downloadFile`, line 23) -/

/-- The element `strings.Split(url, "?")[0]`: the text before the first `?`,
the whole text when there is none. -/
def beforeQuery : List Char → List Char
  | [] => []
  | c :: cs => if c = '?' then [] else c :: beforeQuery cs

/-- Removal of trailing slashes, the first loop of `filepath.Base`. -/
def stripTrailingSlashes (p : List Char) : List Char :=
  (p.reverse.dropWhile (fun c => c = '/')).reverse

/-- The text after the last slash, the second loop of `filepath.Base`. -/
def lastElement (p : List Char) : List Char :=
  (p.reverse.takeWhile (fun c => c ≠ '/')).reverse

/-- The function `filepath.Base` of a slash-separated system without volume
names. -/
def base (path : List Char) : List Char :=
  if path = [] then ['.']
  else
    let p := lastElement (stripTrailingSlashes path)
    if p = [] then ['/'] else p

/-- The name `fileName` computed at line 23 of `init.go`. -/
def fileName (url : String) : String :=
  String.mk (base (beforeQuery url.data))

/-! ## Parsed HTML -/

/-- A node of the tree built by the HTML parser. -/
inductive Node where
  | text (data : String)
  | comment (data : String)
  | elem (tag : String) (attrs : List (String × String)) (children : List Node)

/-- An element node, as a selection holds it. -/
structure Element where
  tag : String
  attrs : List (String × String)
  children : List Node

/-- The read `s.Attr(k)`: the value of the first attribute with that key. -/
def attr (k : String) : List (String × String) → Option String
  | [] => none
  | (k', v) :: rest => if k' = k then some v else attr k rest

/-- The write `s.SetAttr(k, v)`: the first attribute with that key gets the
value, and a new attribute is appended when there is none. -/
def setAttr (k v : String) : List (String × String) → List (String × String)
  | [] => [(k, v)]
  | (k', v') :: rest => if k' = k then (k', v) :: rest else (k', v') :: setAttr k v rest

mutual
/-- The elements below (and including) a node, in document order. -/
def nodeElements : Node → List Element
  | .text _ => []
  | .comment _ => []
  | .elem tag attrs cs => ⟨tag, attrs, cs⟩ :: nodesElements cs
/-- The elements of a forest, in document order. -/
def nodesElements : List Node → List Element
  | [] => []
  | n :: ns => nodeElements n ++ nodesElements ns
end

mutual
/-- The text of a node: its text descendants, concatenated. -/
def nodeText : Node → String
  | .text d => d
  | .comment _ => ""
  | .elem _ _ cs => nodesText cs
/-- The text of a forest. -/
def nodesText : List Node → String
  | [] => ""
  | n :: ns => nodeText n ++ nodesText ns
end

/-- The texts `s.Text()` of the selection `doc.Find("script")`, in document
order. -/
def scriptTexts (doc : List Node) : List String :=
  ((nodesElements doc).filter (fun e => e.tag = "script")).map (fun e => nodesText e.children)

/-- The read `doc.Find("meta[name='...']").Attr("content")`: the attribute of
the first selected element, empty when nothing is selected or it has none. -/
def metaContent (name : String) (doc : List Node) : String :=
  match (nodesElements doc).filter (fun e => e.tag = "meta" ∧ ("name", name) ∈ e.attrs) with
  | [] => ""
  | e :: _ => (attr "content" e.attrs).getD ""

/-- The callback of lines 78-79 on the attributes of an element: an element
selected by `IMG,img` gets as `src` the value read from `data-src`, which is
empty when it has no such attribute; any other element is not visited. -/
def rewrittenAttrs (tag : String) (attrs : List (String × String)) : List (String × String) :=
  if tag = "img" then setAttr "src" ((attr "data-src" attrs).getD "") attrs else attrs

mutual
/-- The iteration `doc.Find("IMG,img").Each(...)` of lines 77-80 below (and
including) a node: every element is visited once, in place; text and
comments are left as they are. -/
def rewriteNode : Node → Node
  | .text d => .text d
  | .comment d => .comment d
  | .elem tag attrs cs => .elem tag (rewrittenAttrs tag attrs) (rewriteNodes cs)
/-- The rewrite of lines 77-80 over a forest. -/
def rewriteNodes : List Node → List Node
  | [] => []
  | n :: ns => rewriteNode n :: rewriteNodes ns
end

/-! ## The outside world -/

/-- An HTTP response: status code, status line and the body as read (an
error when reading it fails). -/
structure Response where
  statusCode : Nat
  status : String
  body : Except String String

/-- The library functions the program calls. -/
structure Env where
  /-- The answer of `a.client.Do` to the request `GetURL` builds from its argument. -/
  pageGet : String → Except String Response
  /-- The answer to a plain GET of a URL. -/
  httpGet : String → Except String Response
  /-- The HTML parser behind `goquery.NewDocumentFromReader`. -/
  parseHTML : String → Except String (List Node)
  /-- The serialiser `doc.Html()`. -/
  renderHTML : List Node → Except String String
  /-- The JSON syntax: the value a text denotes, `none` for a malformed text. -/
  parseJSON : String → Option JSON
  /-- The formatting `fmt.Sprintf("%0.0f", x)`. -/
  fmt0f : Float64 → String
  /-- The bytes of the body of the answer to a plain GET of a URL that arrive
  before its reading breaks off (read only when the body is an error). -/
  received : String → String

/-- Directories and files (path and content) on disk. -/
structure FS where
  dirs : List String
  files : List (String × String)
deriving DecidableEq, Repr

/-- The content of a file, `none` when there is no such file. -/
def readFile (p : String) : List (String × String) → Option String
  | [] => none
  | (p', c) :: rest => if p' = p then some c else readFile p rest

/-- Appending to the content of a file. -/
def appendFile (p s : String) : List (String × String) → List (String × String)
  | [] => []
  | (p', c) :: rest => if p' = p then (p', c ++ s) :: rest else (p', c) :: appendFile p s rest

/-- The directory part of a path: `none` for a path without a slash. -/
def dirOf (p : String) : Option String :=
  if '/' ∈ p.data then
    some (String.mk ((p.data.reverse.dropWhile (fun c => c ≠ '/')).drop 1).reverse)
  else none

/-- Whether the directory a path lies in exists (the working directory does). -/
def parentExists (fs : FS) (p : String) : Bool :=
  match dirOf p with
  | none => true
  | some d => decide (d ∈ fs.dirs)

/-- The call `os.Mkdir(p, 0777)`, its error dropped. -/
def mkdir (fs : FS) (p : String) : FS :=
  if p ∈ fs.dirs ∨ (readFile p fs.files).isSome ∨ parentExists fs p = false then fs
  else { fs with dirs := fs.dirs ++ [p] }

/-- The call `os.OpenFile(p, O_CREATE|O_APPEND|O_WRONLY, 0755)`, its error
dropped: the handle (`none` for the nil file of a failed call) and the disk. -/
def openAppend (fs : FS) (p : String) : Option String × FS :=
  if (readFile p fs.files).isSome then (some p, fs)
  else if p ∈ fs.dirs ∨ parentExists fs p = false then (none, fs)
  else (some p, { fs with files := fs.files ++ [(p, "")] })

/-- Emptying the content of a file. -/
def truncateFile (p : String) : List (String × String) → List (String × String)
  | [] => []
  | (p', c) :: rest => if p' = p then (p', "") :: rest else (p', c) :: truncateFile p rest

/-- Whether the last element of a path is empty, `.` or `..`: such a path
names a directory, never a file. -/
def namesDirectory (p : String) : Bool :=
  decide (lastElement p.data = [] ∨ lastElement p.data = ['.'] ∨ lastElement p.data = ['.', '.'])

/-- The call `os.Create(p)`: it fails on a path that names a directory; an
existing file is emptied, and a new one is created when its directory
exists. -/
def createFile (fs : FS) (p : String) : Option String × FS :=
  if namesDirectory p = true then (none, fs)
  else if (readFile p fs.files).isSome then
    (some p, { fs with files := truncateFile p fs.files })
  else if p ∈ fs.dirs ∨ parentExists fs p = false then (none, fs)
  else (some p, { fs with files := fs.files ++ [(p, "")] })

/-- The call `f.WriteString(s)`, its error dropped. -/
def writeString (fs : FS) (f : Option String) (s : String) : FS :=
  match f with
  | none => fs
  | some p => { fs with files := appendFile p s fs.files }

/-- The state the program acts on: the disk, the goroutines started with
`go downloadFile(url, dir)`, and the number of ten-second pauses taken. -/
structure World where
  fs : FS
  spawned : List (String × String)
  sleeps : Nat
deriving DecidableEq, Repr

/-- The variable `dir`. -/
def dir : String := "alibaba"

/-- The call `fmt.Sprintf(descURL, id)`. -/
def descURL (id : String) : String :=
  "https://www.alibaba.com/event/app/mainAction/desc.htm?detailId=" ++ id ++ "&language=en"

/-- The function `init`: `os.Mkdir(dir, 0777)`. -/
def init (fs : FS) : FS := mkdir fs dir

/-! ## Extraction of the embedded document (`GetURL`, lines 115-131) -/

/-- The marker `window.detailData`. -/
def marker : List Char := "window.detailData".data

/-- The test `strings.Contains(content, sub)`. -/
def containsSub (sub : List Char) : List Char → Bool
  | [] => sub.isEmpty
  | c :: cs => sub.isPrefixOf (c :: cs) || containsSub sub cs

/-- The class `\s` of the regular expression: tab, line feed, form feed,
carriage return, space. -/
def isSpace (c : Char) : Bool :=
  c = '\t' || c = '\n' || c = Char.ofNat 12 || c = '\r' || c = ' '

/-- The text left after a prefix, `none` when the text does not start with it. -/
def dropPrefix : List Char → List Char → Option (List Char)
  | [], s => some s
  | _ :: _, [] => none
  | p :: ps, c :: cs => if p = c then dropPrefix ps cs else none

/-- A match of `window\.detailData\s*=\s*(.*)` starting at the head of the
text, giving the capture group: the marker, white space, `=`, white space
(as much as there is, line feeds included), then the group `(.*)`, whose `.`
takes every character but a line feed. -/
def matchHere (s : List Char) : Option (List Char) :=
  match dropPrefix marker s with
  | none => none
  | some r =>
    match r.dropWhile isSpace with
    | c :: r' =>
      if c = '=' then some ((r'.dropWhile isSpace).takeWhile (fun x => x ≠ '\n')) else none
    | [] => none

/-- The element `re.FindStringSubmatch(content)[1]` for the expression of
line 122: the capture group of the leftmost match, `none` when nothing
matches. -/
def findSubmatch : List Char → Option (List Char)
  | [] => none
  | c :: cs =>
    match matchHere (c :: cs) with
    | some m => some m
    | none => findSubmatch cs

/-- The call `json.Unmarshal(text, &sp)` for `sp` of type `map[string]any`
(`none` is the nil map): an object is stored key by key into the map already
there, `null` makes the map nil, any other value and a malformed text are
errors. -/
def unmarshal (env : Env) (sp : Option Obj) (text : String) : Res (Option Obj) :=
  match env.parseJSON text with
  | none => .err "invalid character"
  | some (.obj m) => .ok (some (m ++ sp.getD []))
  | some .null => .ok none
  | some _ => .err "cannot unmarshal into Go value of type map[string]interface \x7b\x7d"

/-- The test of line 117: `len(content) == 0 || !strings.Contains(content, marker)`. -/
def skipped (content : String) : Bool :=
  decide (content.data = []) || !containsSub marker content.data

/-- The callback of lines 116-130 on one script text. -/
def scriptStep (env : Env) (sp : Option Obj) (content : String) : Res (Option Obj) :=
  if skipped content then .ok sp
  else
    match findSubmatch content.data with
    | none => .panic
    | some m =>
      match unmarshal env sp (String.mk m) with
      | .ok sp' => .ok sp'
      | .err _ => .panic
      | .panic => .panic

/-- The iteration `doc.Find("script").Each(...)` over the script texts. -/
def eachScript (env : Env) : Option Obj → List String → Res (Option Obj)
  | sp, [] => .ok sp
  | sp, c :: cs =>
    match scriptStep env sp c with
    | .ok sp' => eachScript env sp' cs
    | .err e => .err e
    | .panic => .panic

/-- The map read `sp[k]` on a map that may be nil. -/
def lookupNil (k : String) (sp : Option Obj) : Option JSON :=
  lookup k (sp.getD [])

/-! ## The report (`GetURL`, lines 177-242) -/

/-- The body of a loop `for _, v := range xs { acc += line(v) }`. -/
def appendLines (line : JSON → Res String) : String → List JSON → Res String
  | acc, [] => .ok acc
  | acc, v :: vs =>
    match line v with
    | .ok l => appendLines line (acc ++ l) vs
    | .err e => .err e
    | .panic => .panic

/-- The format of line 188 applied to `min`, `max` and `formatPrice`. -/
def tierLine (env : Env) (mn mx : Float64) (formatPrice : String) : String :=
  ">>> 数量: [" ++ env.fmt0f mn ++ " - " ++ env.fmt0f mx ++ "], 价格: " ++ formatPrice ++ "\n"

/-- The text added for one tier at lines 187-188. -/
def ladderLine (env : Env) (v : JSON) : Res String := do
  let ladderPrice ← asMap (some v)
  let mn ← asFloat (lookup "min" ladderPrice)
  let mx ← asFloat (lookup "max" ladderPrice)
  let formatPrice ← asString (lookup "formatPrice" ladderPrice)
  pure (tierLine env mn mx formatPrice)

/-- The variable `priceValue` after lines 182-190. -/
def priceValue (env : Env) (price : Obj) : Res String :=
  match lookup "productLadderPrices" price with
  | some productLadderValue => do
    let productLadderPrices ← asSlice (some productLadderValue)
    appendLines (ladderLine env) "" productLadderPrices
  | none => .ok ""

/-- The text added for one key property at line 196. -/
def keyLine (v : JSON) : Res String := do
  let mainProperty ← asMap (some v)
  let attrName ← asString (lookup "attrName" mainProperty)
  let attrValue ← asString (lookup "attrValue" mainProperty)
  pure ("主要属性: \n>>> " ++ attrName ++ ": " ++ attrValue ++ "\n\n其他属性:\n")

/-- The variable `properties` after lines 192-198. -/
def keyProperties (product : Obj) : Res String :=
  match lookup "productKeyIndustryProperties" product with
  | some productKeyIndustryValue => do
    let xs ← asSlice (some productKeyIndustryValue)
    appendLines keyLine "" xs
  | none => .ok ""

/-- The text added for one property at lines 202 and 214. -/
def attrLine (v : JSON) : Res String := do
  let property ← asMap (some v)
  let attrName ← asString (lookup "attrName" property)
  let attrValue ← asString (lookup "attrValue" property)
  pure (">>> " ++ attrName ++ ": " ++ attrValue ++ "\n")

/-- The variable `supplyAbility` after lines 217-220. -/
def supplyAbility (logisticInfo : Obj) : Res String :=
  match lookup "supplyAbility" logisticInfo with
  | some supplyAbilityValue => asString (some supplyAbilityValue)
  | none => .ok ""

/-- The text added for one customization at line 225. -/
def customLine (env : Env) (v : JSON) : Res String := do
  let lightCustomization ← asMap (some v)
  let customType ← asString (lookup "customType" lightCustomization)
  let moq ← asFloat (lookup "moq" lightCustomization)
  pure (">>> 定制:" ++ customType ++ ", 最低起订量: " ++ env.fmt0f moq ++ "\n")

/-- The template of lines 228-242 filled in. -/
def renderReport (subject keywords description priceValue properties packagingProperties
    supplyAbility customizationList : String) : String :=
  "\n标题: " ++ subject ++ "\n关键词: " ++ keywords ++ "\n描述内容: " ++ description
    ++ "\n\n价格: \n" ++ priceValue ++ "\n属性:\n" ++ properties
    ++ "\n包装与配送: " ++ packagingProperties ++ "\n供应能力: " ++ supplyAbility
    ++ "\n定制信息: " ++ customizationList ++ "\n产品详情请查看 html 文件\n\n"

/-- The string `content` of line 228, computed by lines 177-242. -/
def reportContent (env : Env) (globalData product : Obj) (keywords description : String) :
    Res String := do
  let subject ← asString (lookup "subject" product)
  let price ← asMap (lookup "price" product)
  let priceValue ← priceValue env price
  let properties ← keyProperties product
  let basics ← asSlice (lookup "productBasicProperties" product)
  let properties ← appendLines attrLine properties basics
  let trade ← asMap (lookup "trade" globalData)
  let logisticInfo ← asMap (lookup "logisticInfo" trade)
  let productPackagingProperties ← asSlice (lookup "productPackagingProperties" logisticInfo)
  let packagingProperties ← appendLines attrLine "" productPackagingProperties
  let supplyAbility ← supplyAbility logisticInfo
  let customs ← asSlice (lookup "productLightCustomizationList" product)
  let customizationList ← appendLines (customLine env) "" customs
  pure (renderReport subject keywords description priceValue properties packagingProperties
    supplyAbility customizationList)

/-! ## `GetDetail`, `downloadFile`, `GetURL`, `main` -/

/-- The method `Alibaba.GetDetail`; `err e` is the return of `"", e`. -/
def GetDetail (env : Env) (id : String) : Res String :=
  match env.httpGet (descURL id) with
  | .error e => .err e
  | .ok resp =>
    if resp.statusCode ≠ 200 then .err ("status code error: " ++ resp.status)
    else
      match resp.body with
      | .error e => .err e
      | .ok body =>
        match unmarshal env none body with
        | .err e => .err e
        | .panic => .panic
        | .ok sp =>
          match asMap (lookupNil "data" sp) with
          | .err e => .err e
          | .panic => .panic
          | .ok data =>
            match asString (lookup "productHtmlDescription" data) with
            | .err e => .err e
            | .panic => .panic
            | .ok content =>
              match env.parseHTML content with
              | .error e => .err e
              | .ok doc =>
                match env.renderHTML (rewriteNodes doc) with
                | .error e => .err e
                | .ok html => .ok html

/-- The function `downloadFile` of `init.go`: the GET, `os.Create` on
`dirname/fileName`, then `io.Copy`, which writes what it receives, also when
the body breaks off. -/
def downloadFile (env : Env) (fs : FS) (url dirname : String) : Res Unit × FS :=
  match env.httpGet url with
  | .error e => (.err e, fs)
  | .ok resp =>
    match createFile fs (dirname ++ "/" ++ fileName url) with
    | (none, fs1) => (.err "open", fs1)
    | (some file, fs1) =>
      match resp.body with
      | .error e => (.err e, writeString fs1 (some file) (env.received url))
      | .ok body => (.ok (), writeString fs1 (some file) body)

/-- The media loop of lines 140-171: one goroutine per `video` or `image`
item, until an item makes the loop panic. -/
def mediaLoop (targetDir : String) : World → List JSON → Res Unit × World
  | w, [] => (.ok (), w)
  | w, v :: vs =>
    match mediumURL v with
    | .ok (some u) => mediaLoop targetDir { w with spawned := w.spawned ++ [(u, targetDir)] } vs
    | .ok none => mediaLoop targetDir w vs
    | .err e => (.err e, w)
    | .panic => (.panic, w)

/-- Lines 133-136: `globalData`, `product` and `productId` read from `sp`. -/
def pageData (env : Env) (sp : Option Obj) : Res (Obj × Obj × String) := do
  let globalData ← asMap (lookupNil "globalData" sp)
  let product ← asMap (lookup "product" globalData)
  let productId ← asFloat (lookup "productId" product)
  pure (globalData, product, env.fmt0f productId)

/-- Lines 248-255 of `GetURL`: the description file is opened, `GetDetail`
is called, and its result is written when it returned no error. -/
def writeDescription (env : Env) (fs : FS) (targetDir productId : String) : Res Unit × FS :=
  let (desc, fs1) := openAppend fs (targetDir ++ "/" ++ productId ++ ".html")
  match GetDetail env productId with
  | .ok productDetail => (.ok (), writeString fs1 desc productDetail)
  | .err _ => (.ok (), fs1)
  | .panic => (.panic, fs1)

/-- Lines 174-255 of `GetURL`: the report file, then the description file. -/
def writeFiles (env : Env) (w : World) (doc : List Node) (globalData product : Obj)
    (productId : String) : Res Unit × World :=
  let targetDir := dir ++ "/" ++ productId
  let fs1 := mkdir w.fs targetDir
  let (file, fs2) := openAppend fs1 (targetDir ++ "/" ++ productId ++ ".txt")
  match reportContent env globalData product (metaContent "keywords" doc)
      (metaContent "description" doc) with
  | .err e => (.err e, { w with fs := fs2 })
  | .panic => (.panic, { w with fs := fs2 })
  | .ok content =>
    let (r, fs3) := writeDescription env (writeString fs2 file content) targetDir productId
    (r, { w with fs := fs3 })

/-- The method `Alibaba.GetURL`. -/
def GetURL (env : Env) (w : World) (rawURL : String) : Res Unit × World :=
  match env.pageGet rawURL with
  | .error e => (.err e, w)
  | .ok resp =>
    if resp.statusCode ≠ 200 then (.err ("status code error: " ++ resp.status), w)
    else
      match resp.body >>= env.parseHTML with
      | .error _ => (.panic, w)
      | .ok doc =>
        match eachScript env none (scriptTexts doc) >>= pageData env with
        | .err e => (.err e, w)
        | .panic => (.panic, w)
        | .ok (globalData, product, productId) =>
          match asSlice (lookup "mediaItems" product) with
          | .err e => (.err e, w)
          | .panic => (.panic, w)
          | .ok media =>
            match mediaLoop (dir ++ "/" ++ productId) w media with
            | (.err e, w1) => (.err e, w1)
            | (.panic, w1) => (.panic, w1)
            | (.ok _, w1) => writeFiles env w1 doc globalData product productId

/-- The loop of `main` over its URLs: an error of `GetURL` skips the pause and
goes on with the next URL, a panic ends the run. -/
def mainLoop (env : Env) : World → List String → Res Unit × World
  | w, [] => (.ok (), w)
  | w, v :: rest =>
    match GetURL env w v with
    | (.err _, w1) => mainLoop env w1 rest
    | (.panic, w1) => (.panic, w1)
    | (.ok _, w1) => mainLoop env { w1 with sleeps := w1.sleeps + 1 } rest

/-- The list `urls` of `main`. -/
def urls : List String :=
  ["https://www.alibaba.com/product-detail/paint-boy-newest-wholesale-5d-diamond_1600155582218.html?spm=a2700.galleryofferlist.wending_right.6.6b614124IsHIQE"]

/-- The function `main`, started on the disk left by `init`. -/
def main (env : Env) (fs : FS) : Res Unit × World :=
  mainLoop env ⟨init fs, [], 0⟩ urls

/-! ## Predicates and sample inputs of the properties -/

/-- A video item whose best tier `hd` is present but `null`, with a usable `sd`. -/
def nullHdItem : JSON :=
  .obj [("type", .str "video"),
        ("videoUrl", .obj [("hd", .null), ("sd", .obj [("videoUrl", .str "https://v/sd.mp4")])])]

/-- A well-formed value of a tier and its URL: for a video a map whose
`videoUrl` is a string, for an image a string. -/
def TierURL (ty : String) (item : JSON) (u : String) : Prop :=
  (ty = "video" ∧ ∃ m, item = .obj m ∧ lookup "videoUrl" m = some (.str u)) ∨
    (ty = "image" ∧ item = .str u)

/-- A well-formed tier: a map with numeric `min` and `max` and a string
`formatPrice`. -/
def IsTier (t : JSON) (r : Float64 × Float64 × String) : Prop :=
  ∃ m, t = .obj m ∧ lookup "min" m = some (.num r.1) ∧ lookup "max" m = some (.num r.2.1) ∧
    lookup "formatPrice" m = some (.str r.2.2)

/-- A stand-in for `%0.0f` in the concrete runs, whose numbers are integers
coded by themselves: the code in decimal. -/
def showBits (f : Float64) : String := String.mk (Nat.toDigits 10 f.bits)

/-- The library functions of the concrete runs that need none of them. -/
def idleEnv : Env where
  pageGet := fun _ => .error "no network"
  httpGet := fun _ => .error "no network"
  parseHTML := fun _ => .ok []
  renderHTML := fun _ => .ok ""
  parseJSON := fun _ => none
  fmt0f := showBits
  received := fun _ => ""

/-- Two well-formed tiers. -/
def twoTiers : List JSON :=
  [.obj [("min", .num ⟨1⟩), ("max", .num ⟨9⟩), ("formatPrice", .str "$2.00")],
   .obj [("min", .num ⟨10⟩), ("max", .num ⟨99⟩), ("formatPrice", .str "$1.50")]]

/-- What the rewrite may change between an element and its image: the tag is
kept, an element that is no `img` keeps its attribute list, and an `img` keeps,
in order, every attribute whose key is not `src`. -/
def Frame (e e' : Element) : Prop :=
  e'.tag = e.tag ∧ (e.tag ≠ "img" → e'.attrs = e.attrs) ∧
    e'.attrs.filter (fun a => a.1 ≠ "src") = e.attrs.filter (fun a => a.1 ≠ "src")

/-- The source an `img` shows after the rewrite: the value of its `data-src`
when it has one, the empty string when it has none. -/
def LazySource (e e' : Element) : Prop :=
  e.tag = "img" →
    (∀ v, attr "data-src" e.attrs = some v → attr "src" e'.attrs = some v) ∧
      (attr "data-src" e.attrs = none → attr "src" e'.attrs = some "")

/-- A pretty-printed document: the JSON text goes over two lines. -/
def twoLineJSON : String := "\x7b\n\"a\": 1\x7d"

/-- A JSON syntax that knows the text `twoLineJSON` only. -/
def twoLineEnv : Env :=
  { idleEnv with
    parseJSON := fun t => if t = twoLineJSON then some (.obj [("a", .num ⟨1⟩)]) else none }

/-- The text after a mention of the marker that makes the mention an
assignment: white space, then `=`. -/
def Assigns (b : List Char) : Prop :=
  ∃ ws r, (∀ x ∈ ws, isSpace x = true) ∧ b = ws ++ '=' :: r

/-- A script that mentions the marker before it assigns to it. -/
def mentionScript : String :=
  "var d = window.detailData; window.detailData = \x7b\"a\":1\x7d\nvar y;"

/-- A JSON syntax that knows the text `{"a":1}` only. -/
def oneLineEnv : Env :=
  { idleEnv with
    parseJSON := fun t => if t = "\x7b\"a\":1\x7d" then some (.obj [("a", .num ⟨1⟩)]) else none }

/-- The value of a top-level key after the documents `docs` were stored one
after the other into a map that held `start` for it: a document that has the
key replaces the value. -/
def lastWins (k : String) (docs : List Obj) (start : Option JSON) : Option JSON :=
  docs.foldl (fun acc m => match lookup k m with
    | some v => some v
    | none => acc) start

/-- A script text whose capture is the JSON text of the object `m`. -/
def Decodes (env : Env) (content : String) (m : Obj) : Prop :=
  ∃ cap, findSubmatch content.data = some cap ∧ env.parseJSON (String.mk cap) = some (.obj m)

/-- The document of a product with the id `n`. -/
def productDoc (n : Nat) : JSON :=
  .obj [("globalData", .obj [("product", .obj [("productId", .num ⟨n⟩)])])]

/-- The JSON text of `productDoc 1`. -/
def firstJSON : String := "\x7b\"globalData\":\x7b\"product\":\x7b\"productId\":1\x7d\x7d\x7d"

/-- The JSON text of `productDoc 2`. -/
def secondJSON : String := "\x7b\"globalData\":\x7b\"product\":\x7b\"productId\":2\x7d\x7d\x7d"

/-- A JSON syntax that knows the two texts `firstJSON` and `secondJSON`. -/
def twoDocEnv : Env :=
  { idleEnv with
    parseJSON := fun t =>
      if t = firstJSON then some (productDoc 1)
      else if t = secondJSON then some (productDoc 2) else none }

/-- A page with two script elements that carry the marker. -/
def twoScriptPage : List Node :=
  [.elem "html" [] [
    .elem "head" [] [.elem "script" [] [.text ("window.detailData = " ++ firstJSON)]],
    .elem "body" [] [.elem "script" [] [.text ("window.detailData = " ++ secondJSON)]]]]

/-- The page fetch fails: a transport error, or a status other than 200. -/
def FetchFails (env : Env) (v : String) : Prop :=
  (∃ e, env.pageGet v = .error e) ∨ ∃ resp, env.pageGet v = .ok resp ∧ resp.statusCode ≠ 200

/-- A script text with the marker whose embedded JSON cannot be decoded into
the map: whatever the expression captures is rejected by `json.Unmarshal`. -/
def DecodeFails (env : Env) (content : String) : Prop :=
  skipped content = false ∧
    ∀ cap, findSubmatch content.data = some cap →
      ∀ sp, ∃ e, unmarshal env sp (String.mk cap) = .err e

/-- The page is fetched with status 200 and fails the top-level parsing: the
HTML cannot be parsed, or a script with the marker cannot be decoded. -/
def ParseFails (env : Env) (v : String) : Prop :=
  ∃ resp, env.pageGet v = .ok resp ∧ resp.statusCode = 200 ∧
    ((∃ e, (resp.body >>= env.parseHTML) = .error e) ∨
      ∃ doc, (resp.body >>= env.parseHTML) = .ok doc ∧ ∃ c ∈ scriptTexts doc, DecodeFails env c)

/-- A page fetched with status 200 whose only script assigns a broken text. -/
def brokenJsonEnv : Env :=
  { idleEnv with
    pageGet := fun _ => .ok ⟨200, "200 OK", .ok "<html>"⟩
    parseHTML := fun _ => .ok [.elem "script" [] [.text "window.detailData = \x7b\"globalData\":"]] }

/-- A server that answers every plain GET with the four bytes `JPEG`. -/
def imageEnv : Env :=
  { idleEnv with httpGet := fun _ => .ok ⟨200, "200 OK", .ok "JPEG"⟩ }

/-- A site that answers every page request with status 404. -/
def notFoundEnv : Env :=
  { idleEnv with pageGet := fun _ => .ok ⟨404, "404 Not Found", .ok ""⟩ }

/-- A product without the optional sections and without media. -/
def bareProduct : Obj :=
  [("productId", .num ⟨1600155582218⟩),
   ("subject", .str "5D diamond painting"),
   ("mediaItems", .arr []),
   ("price", .obj []),
   ("productBasicProperties", .arr [.obj [("attrName", .str "Material"), ("attrValue", .str "Canvas")]]),
   ("productLightCustomizationList", .arr [])]

/-- A `globalData` without the optional sections. -/
def bareGlobal : Obj :=
  [("product", .obj bareProduct),
   ("trade", .obj [("logisticInfo", .obj [("productPackagingProperties", .arr [])])])]

/-- The JSON text of the document whose `globalData` is `bareGlobal`. -/
def bareJSON : String :=
  "\x7b\"globalData\":\x7b\"product\":\x7b\"productId\":1600155582218,\"subject\":\"5D diamond painting\",\"mediaItems\":[],\"price\":\x7b\x7d,\"productBasicProperties\":[\x7b\"attrName\":\"Material\",\"attrValue\":\"Canvas\"\x7d],\"productLightCustomizationList\":[]\x7d,\"trade\":\x7b\"logisticInfo\":\x7b\"productPackagingProperties\":[]\x7d\x7d\x7d\x7d"

/-- A product page that is served and decodes to `bareGlobal`, with a
description endpoint that answers 404. -/
def noDescriptionEnv : Env :=
  { idleEnv with
    pageGet := fun _ => .ok ⟨200, "200 OK", .ok "<html>"⟩
    httpGet := fun _ => .ok ⟨404, "404 Not Found", .ok ""⟩
    parseHTML := fun _ => .ok [.elem "html" [] [
      .elem "meta" [("name", "keywords"), ("content", "diamond, painting")] [],
      .elem "script" [] [.text ("window.detailData = " ++ bareJSON)]]]
    parseJSON := fun t =>
      if t = bareJSON then some (.obj [("globalData", .obj bareGlobal)]) else none }

/-- A result that is a value or a panic, never a returned error. -/
def NoErr {α : Type} (r : Res α) : Prop := ∀ e, r ≠ .err e

/-- A required section of the report is absent: `subject`, `price`,
`productBasicProperties` or `productLightCustomizationList` of the product,
or `productPackagingProperties` of the logistic info. -/
def RequiredMissing (globalData product : Obj) : Prop :=
  lookup "subject" product = none ∨ lookup "price" product = none ∨
    lookup "productBasicProperties" product = none ∨
    lookup "productLightCustomizationList" product = none ∨
    ∃ trade li, lookup "trade" globalData = some (.obj trade) ∧
      lookup "logisticInfo" trade = some (.obj li) ∧
      lookup "productPackagingProperties" li = none

/-! ## Basic facts -/

@[simp] theorem Res.ok_bind {α β : Type} (a : α) (f : α → Res β) :
    (Res.ok a >>= f) = f a := rfl

@[simp] theorem Res.panic_bind {α β : Type} (f : α → Res β) :
    ((Res.panic : Res α) >>= f) = Res.panic := rfl

@[simp] theorem Res.err_bind {α β : Type} (e : String) (f : α → Res β) :
    ((Res.err e : Res α) >>= f) = Res.err e := rfl

@[simp] theorem Res.pure_eq {α : Type} (a : α) : (pure a : Res α) = Res.ok a := rfl

theorem pickVideo_first (video : Obj) (s : String) (item : JSON) (post : List String)
    (hs : lookup s video = some item) :
    ∀ pre : List String, (∀ t ∈ pre, lookup t video = none) →
      pickVideo video (pre ++ s :: post) = videoTierURL item
  | [], _ => by simp [pickVideo, hs]
  | t :: pre, h => by
    have ht : lookup t video = none := h t (List.mem_cons_self _ _)
    have ih := pickVideo_first video s item post hs pre
      (fun x hx => h x (List.mem_cons_of_mem _ hx))
    simp [pickVideo, ht, ih]

theorem pickImage_first (image : Obj) (s : String) (item : JSON) (post : List String)
    (hs : lookup s image = some item) :
    ∀ pre : List String, (∀ t ∈ pre, lookup t image = none) →
      pickImage image (pre ++ s :: post) = imageTierURL item
  | [], _ => by simp [pickImage, hs]
  | t :: pre, h => by
    have ht : lookup t image = none := h t (List.mem_cons_self _ _)
    have ih := pickImage_first image s item post hs pre
      (fun x hx => h x (List.mem_cons_of_mem _ hx))
    simp [pickImage, ht, ih]

theorem videoTierURL_cases (item : JSON) :
    (∃ u, TierURL "video" item u ∧ videoTierURL item = .ok u) ∨
      ((∀ u, ¬ TierURL "video" item u) ∧ videoTierURL item = .panic) := by
  have hne : ¬ ("video" = "image") := by decide
  cases item with
  | obj m =>
    cases hl : lookup "videoUrl" m with
    | none =>
      right
      refine ⟨?_, by simp [videoTierURL, asMap, hl, asString]⟩
      rintro u (⟨_, m', hm, hu⟩ | ⟨h, _⟩)
      · cases hm; rw [hl] at hu; cases hu
      · exact hne h
    | some v =>
      cases v with
      | str u =>
        left
        exact ⟨u, Or.inl ⟨rfl, m, rfl, hl⟩, by simp [videoTierURL, asMap, hl, asString]⟩
      | _ =>
        right
        refine ⟨?_, by simp [videoTierURL, asMap, hl, asString]⟩
        rintro u (⟨_, m', hm, hu⟩ | ⟨h, _⟩)
        · cases hm; rw [hl] at hu; cases hu
        · exact hne h
  | _ =>
    right
    refine ⟨?_, by simp [videoTierURL, asMap]⟩
    rintro u (⟨_, m', hm, _⟩ | ⟨h, _⟩)
    · cases hm
    · exact hne h

theorem imageTierURL_cases (item : JSON) :
    (∃ u, TierURL "image" item u ∧ imageTierURL item = .ok u) ∨
      ((∀ u, ¬ TierURL "image" item u) ∧ imageTierURL item = .panic) := by
  have hne : ¬ ("image" = "video") := by decide
  cases item with
  | str u => exact Or.inl ⟨u, Or.inr ⟨rfl, rfl⟩, rfl⟩
  | _ =>
    right
    refine ⟨?_, by simp [imageTierURL, asString]⟩
    rintro u (⟨h, _⟩ | ⟨_, hm⟩)
    · exact hne h
    · cases hm

theorem tierURL_unique (ty : String) (item : JSON) (u u' : String)
    (h : TierURL ty item u) (h' : TierURL ty item u') : u = u' := by
  rcases h with ⟨hv, m, hm, hu⟩ | ⟨hi, hm⟩ <;> rcases h' with ⟨hv', m', hm', hu'⟩ | ⟨hi', hm'⟩
  · rw [hm] at hm'
    cases hm'
    rw [hu] at hu'
    cases hu'
    rfl
  · rw [hm] at hm'; cases hm'
  · rw [hm] at hm'; cases hm'
  · rw [hm] at hm'
    cases hm'
    rfl

/-! ## C1 : the tier handed to `downloadFile` -/

/-- C1 as stated fails: the item `nullHdItem` has a tier of the video list
(`sd`) present with a well-formed value, yet no URL is handed to
`downloadFile`: the loop stops at the first present tier `hd`, whose value is
not a map, and the assertion panics. -/
theorem c1_present_tier_need_not_be_chosen :
    (∃ s ∈ videoSizes, ∃ m u,
        lookup s [("hd", JSON.null), ("sd", .obj [("videoUrl", .str "https://v/sd.mp4")])]
          = some (.obj m) ∧ lookup "videoUrl" m = some (.str u)) ∧
      mediumURL nullHdItem = .panic ∧
      (∀ w, mediaLoop "alibaba/1" w [nullHdItem] = (.panic, w)) := by
  refine ⟨⟨"sd", by decide, [("videoUrl", .str "https://v/sd.mp4")], "https://v/sd.mp4",
    rfl, rfl⟩, by decide, ?_⟩
  intro w
  have h : mediumURL nullHdItem = .panic := by decide
  simp [mediaLoop, h]

/-- C1, amended: let `s` be the first tier of the preference list that is
present in the tier map (every tier before it in the list being absent), with
the value `item`; the list is `videoSizes` for type `video` and `imageSizes`
for type `image`.  (1) When `item` is well-formed with the URL `u`, `mediumURL`
yields `u` and the media loop hands exactly `u` to `downloadFile`.  (2) When
`item` is not well-formed, `mediumURL` panics and the loop ends without
handing any URL for the item, whatever the later tiers hold.  (3) So a URL
that is handed is always the URL of `s`: a tier later in the list is never
chosen when an earlier one is present. -/
theorem c1_first_present_tier_is_downloaded (medium tiers : Obj) (ty key : String)
    (sizes pre post : List String) (s : String) (item : JSON)
    (hty : lookup "type" medium = some (.str ty))
    (hcase : (ty = "video" ∧ key = "videoUrl" ∧ sizes = videoSizes) ∨
             (ty = "image" ∧ key = "imageUrl" ∧ sizes = imageSizes))
    (hmap : lookup key medium = some (.obj tiers))
    (hsplit : sizes = pre ++ s :: post)
    (hpre : ∀ t ∈ pre, lookup t tiers = none)
    (hs : lookup s tiers = some item) :
    (∀ u, TierURL ty item u →
      mediumURL (.obj medium) = .ok (some u) ∧
        ∀ (targetDir : String) (w : World) (rest : List JSON),
          mediaLoop targetDir w (.obj medium :: rest)
            = mediaLoop targetDir { w with spawned := w.spawned ++ [(u, targetDir)] } rest) ∧
    ((∀ u, ¬ TierURL ty item u) →
      mediumURL (.obj medium) = .panic ∧
        ∀ (targetDir : String) (w : World) (rest : List JSON),
          mediaLoop targetDir w (.obj medium :: rest) = (.panic, w)) ∧
    (∀ u, mediumURL (.obj medium) = .ok (some u) → TierURL ty item u) := by
  have hcases : (∃ u, TierURL ty item u ∧ mediumURL (.obj medium) = .ok (some u)) ∨
      ((∀ u, ¬ TierURL ty item u) ∧ mediumURL (.obj medium) = .panic) := by
    rcases hcase with ⟨h1, h2, h3⟩ | ⟨h1, h2, h3⟩
    · subst h1 h2
      have hp := pickVideo_first tiers s item post hs pre hpre
      rw [← hsplit, h3] at hp
      rcases videoTierURL_cases item with ⟨u, hu, hr⟩ | ⟨hno, hr⟩
      · exact Or.inl ⟨u, hu, by simp [mediumURL, asMap, hty, asString, hmap, hp, hr]⟩
      · exact Or.inr ⟨hno, by simp [mediumURL, asMap, hty, asString, hmap, hp, hr]⟩
    · subst h1 h2
      have hp := pickImage_first tiers s item post hs pre hpre
      rw [← hsplit, h3] at hp
      rcases imageTierURL_cases item with ⟨u, hu, hr⟩ | ⟨hno, hr⟩
      · exact Or.inl ⟨u, hu, by simp [mediumURL, asMap, hty, asString, hmap, hp, hr]⟩
      · exact Or.inr ⟨hno, by simp [mediumURL, asMap, hty, asString, hmap, hp, hr]⟩
  refine ⟨?_, ?_, ?_⟩
  · intro u hu
    have key1 : mediumURL (.obj medium) = .ok (some u) := by
      rcases hcases with ⟨u', hu', hr⟩ | ⟨hno, _⟩
      · rw [tierURL_unique ty item u u' hu hu']
        exact hr
      · exact absurd hu (hno u)
    refine ⟨key1, ?_⟩
    intro targetDir w rest
    simp [mediaLoop, key1]
  · intro hno
    have key1 : mediumURL (.obj medium) = .panic := by
      rcases hcases with ⟨u', hu', _⟩ | ⟨_, hr⟩
      · exact absurd hu' (hno u')
      · exact hr
    refine ⟨key1, ?_⟩
    intro targetDir w rest
    simp [mediaLoop, key1]
  · intro u hr
    rcases hcases with ⟨u', hu', hr'⟩ | ⟨_, hr'⟩
    · rw [hr'] at hr
      cases hr
      exact hu'
    · rw [hr'] at hr
      cases hr

/-- The amended C1 at a video item with `hd` absent and `hd_265`, `sd`
present, and at an image item whose `big` is present but no string, with a
usable `thumb`. -/
theorem c1_first_present_tier_is_downloaded_witness :
    mediumURL (.obj [("type", .str "video"),
        ("videoUrl", .obj [("sd", .obj [("videoUrl", .str "low")]),
                           ("hd_265", .obj [("videoUrl", .str "high")])])])
      = .ok (some "high") ∧
    mediumURL (.obj [("type", .str "image"),
        ("imageUrl", .obj [("thumb", .str "t.jpg"), ("big", .null)])]) = .panic :=
  ⟨((c1_first_present_tier_is_downloaded
      [("type", .str "video"),
       ("videoUrl", .obj [("sd", .obj [("videoUrl", .str "low")]),
                          ("hd_265", .obj [("videoUrl", .str "high")])])]
      [("sd", .obj [("videoUrl", .str "low")]), ("hd_265", .obj [("videoUrl", .str "high")])]
      "video" "videoUrl" videoSizes ["hd"] ["sd_265", "ld", "sd"] "hd_265"
      (.obj [("videoUrl", .str "high")])
      rfl (Or.inl ⟨rfl, rfl, rfl⟩) rfl rfl (by intro t ht; simp at ht; subst ht; rfl) rfl).1
        "high" (Or.inl ⟨rfl, _, rfl, rfl⟩)).1,
   ((c1_first_present_tier_is_downloaded
      [("type", .str "image"), ("imageUrl", .obj [("thumb", .str "t.jpg"), ("big", .null)])]
      [("thumb", .str "t.jpg"), ("big", .null)]
      "image" "imageUrl" imageSizes [] ["normal", "small", "thumb"] "big" .null
      rfl (Or.inr ⟨rfl, rfl, rfl⟩) rfl rfl (by intro t ht; simp at ht) rfl).2.1
        (by
          rintro u (⟨h, _⟩ | ⟨_, h⟩)
          · exact absurd h (by decide)
          · cases h)).1⟩

/-! ## C2 : the file name of a download -/

theorem beforeQuery_append (rest : List Char) (hrest : rest = [] ∨ ∃ q, rest = '?' :: q) :
    ∀ p : List Char, '?' ∉ p → beforeQuery (p ++ rest) = p
  | [], _ => by
    rcases hrest with h | ⟨q, h⟩ <;> subst h <;> simp [beforeQuery]
  | c :: p, h => by
    have hc : c ≠ '?' := fun e => h (e ▸ List.mem_cons_self _ _)
    have ih := beforeQuery_append rest hrest p (fun hm => h (List.mem_cons_of_mem _ hm))
    simp [beforeQuery, hc, ih]

theorem mem_base (c : Char) (p : List Char) (h : c ∈ base p) : c ∈ p ∨ c = '.' ∨ c = '/' := by
  unfold base at h
  split at h
  · simp at h; exact Or.inr (Or.inl h)
  · simp only at h
    split at h
    · simp at h; exact Or.inr (Or.inr h)
    · left
      unfold lastElement stripTrailingSlashes at h
      rw [List.mem_reverse] at h
      have h1 := (List.takeWhile_sublist _).subset h
      rw [List.mem_reverse] at h1
      simp only [List.mem_reverse] at h1
      have h2 := (List.dropWhile_sublist _).subset h1
      exact List.mem_reverse.mp h2

theorem readFile_appendFile_ne (p q s : String) (hne : q ≠ p) :
    ∀ fs : List (String × String), readFile q (appendFile p s fs) = readFile q fs
  | [] => rfl
  | (p', c) :: fs => by
    have ih := readFile_appendFile_ne p q s hne fs
    unfold appendFile
    by_cases h : p' = p
    · have hq : ¬ p' = q := fun e => hne (e.symm.trans h)
      rw [if_pos h]
      simp only [readFile, if_neg hq]
    · rw [if_neg h]
      simp only [readFile, ih]

theorem readFile_truncateFile_ne (p q : String) (hne : q ≠ p) :
    ∀ fs : List (String × String), readFile q (truncateFile p fs) = readFile q fs
  | [] => rfl
  | (p', c) :: fs => by
    have ih := readFile_truncateFile_ne p q hne fs
    unfold truncateFile
    by_cases h : p' = p
    · have hq : ¬ p' = q := fun e => hne (e.symm.trans h)
      rw [if_pos h]
      simp only [readFile, if_neg hq]
    · rw [if_neg h]
      simp only [readFile, ih]

theorem readFile_append_ne (p q c : String) (hne : q ≠ p) :
    ∀ fs : List (String × String), readFile q (fs ++ [(p, c)]) = readFile q fs
  | [] => by
    have hq : ¬ p = q := fun e => hne e.symm
    simp only [List.nil_append, readFile, if_neg hq]
  | (p', c') :: fs => by
    have ih := readFile_append_ne p q c hne fs
    show (if p' = q then some c' else readFile q (fs ++ [(p, c)])) = _
    rw [ih]
    rfl

theorem readFile_append_new (p c : String) :
    ∀ fs : List (String × String), readFile p fs = none → readFile p (fs ++ [(p, c)]) = some c
  | [], _ => by simp [readFile]
  | (p', c') :: fs, h => by
    by_cases hp : p' = p
    · simp [readFile, hp] at h
    · simp only [readFile, if_neg hp] at h
      have ih := readFile_append_new p c fs h
      simp only [List.cons_append, readFile, if_neg hp]
      exact ih

theorem readFile_truncateFile_self (p : String) :
    ∀ fs : List (String × String), (readFile p fs).isSome = true →
      readFile p (truncateFile p fs) = some ""
  | [], h => by simp [readFile] at h
  | (p', c) :: fs, h => by
    unfold truncateFile
    by_cases hp : p' = p
    · rw [if_pos hp]
      simp only [readFile, if_pos hp]
    · rw [if_neg hp]
      simp only [readFile, if_neg hp] at h ⊢
      exact readFile_truncateFile_self p fs h

theorem readFile_appendFile_self (p s c : String) :
    ∀ fs : List (String × String), readFile p fs = some c →
      readFile p (appendFile p s fs) = some (c ++ s)
  | [], h => by simp [readFile] at h
  | (p', c') :: fs, h => by
    unfold appendFile
    by_cases hp : p' = p
    · rw [if_pos hp]
      simp only [readFile, if_pos hp] at h ⊢
      cases h
      rfl
    · rw [if_neg hp]
      simp only [readFile, if_neg hp] at h ⊢
      exact readFile_appendFile_self p s c fs h

theorem readFile_createFile_ne (fs : FS) (p q : String) (hne : q ≠ p) :
    readFile q (createFile fs p).2.files = readFile q fs.files := by
  unfold createFile
  split
  · rfl
  · split
    · exact readFile_truncateFile_ne p q hne _
    · split
      · rfl
      · exact readFile_append_ne p q "" hne _

theorem createFile_some (fs fs1 : FS) (p f : String) (h : createFile fs p = (some f, fs1)) :
    f = p ∧ readFile p fs1.files = some "" := by
  unfold createFile at h
  split at h
  · cases h
  · split at h
    · rename_i hsome
      cases h
      exact ⟨rfl, readFile_truncateFile_self p _ hsome⟩
    · split at h
      · cases h
      · rename_i hnone _
        cases h
        refine ⟨rfl, readFile_append_new p "" _ ?_⟩
        cases hr : readFile p fs.files with
        | none => rfl
        | some c => rw [hr] at hnone; exact absurd rfl hnone

theorem createFile_ok (fs : FS) (p : String) (hname : namesDirectory p = false)
    (hfree : (readFile p fs.files).isSome = true ∨ (p ∉ fs.dirs ∧ parentExists fs p = true)) :
    ∃ fs1, createFile fs p = (some p, fs1) := by
  unfold createFile
  rw [hname]
  simp only [Bool.false_eq_true, if_false]
  by_cases hsome : (readFile p fs.files).isSome = true
  · rw [if_pos hsome]
    exact ⟨_, rfl⟩
  · rw [if_neg hsome]
    rcases hfree with h | ⟨hd, hpar⟩
    · exact absurd h hsome
    · have hno : ¬ (p ∈ fs.dirs ∨ parentExists fs p = false) := by
        rintro (h | h)
        · exact hd h
        · rw [hpar] at h; cases h
      rw [if_neg hno]
      exact ⟨_, rfl⟩

theorem downloadFile_stores (env : Env) (fs : FS) (url dirname : String) (resp : Response)
    (body : String) (hget : env.httpGet url = .ok resp) (hbody : resp.body = .ok body)
    (fs1 : FS) (hcreate : createFile fs (dirname ++ "/" ++ fileName url)
      = (some (dirname ++ "/" ++ fileName url), fs1)) :
    (downloadFile env fs url dirname).1 = .ok () ∧
      readFile (dirname ++ "/" ++ fileName url) (downloadFile env fs url dirname).2.files
        = some body := by
  have hempty := (createFile_some fs fs1 _ _ hcreate).2
  have hw := readFile_appendFile_self (dirname ++ "/" ++ fileName url) body "" fs1.files hempty
  rw [String.empty_append] at hw
  have hd : downloadFile env fs url dirname
      = (.ok (), writeString fs1 (some (dirname ++ "/" ++ fileName url)) body) := by
    unfold downloadFile
    simp only [hget, hcreate, hbody]
  rw [hd]
  exact ⟨rfl, hw⟩

/-- C2: for a URL `p ++ rest` where `p` has no `?` and `rest` is empty or
starts with `?`, the file name is the base name of `p`; it holds no `?`; every
URL with the same text before its first `?` gets the same file name.  On disk:
when the GET answers with a body and `dirname/fileName` can be created (it
names no directory, and it exists as a file or its directory exists),
`downloadFile` returns no error and the file `dirname/fileName` holds the
body; whenever `downloadFile` returns no error that file holds the body of the
answer; and no file other than `dirname/fileName` is created or changed. -/
theorem c2_file_name_drops_query (url : String) (p rest : List Char)
    (hurl : url.data = p ++ rest) (hp : '?' ∉ p)
    (hrest : rest = [] ∨ ∃ q, rest = '?' :: q) :
    fileName url = String.mk (base p) ∧
      '?' ∉ (fileName url).data ∧
      (∀ q : List Char, fileName (String.mk (p ++ '?' :: q)) = fileName url) ∧
      (∀ (env : Env) (fs : FS) (dirname : String) (resp : Response) (body : String),
        env.httpGet url = .ok resp → resp.body = .ok body →
        namesDirectory (dirname ++ "/" ++ String.mk (base p)) = false →
        ((readFile (dirname ++ "/" ++ String.mk (base p)) fs.files).isSome = true ∨
          (dirname ++ "/" ++ String.mk (base p) ∉ fs.dirs ∧
            parentExists fs (dirname ++ "/" ++ String.mk (base p)) = true)) →
        (downloadFile env fs url dirname).1 = .ok () ∧
          readFile (dirname ++ "/" ++ String.mk (base p))
            (downloadFile env fs url dirname).2.files = some body) ∧
      (∀ (env : Env) (fs : FS) (dirname : String),
        (downloadFile env fs url dirname).1 = .ok () →
          ∃ resp body, env.httpGet url = .ok resp ∧ resp.body = .ok body ∧
            readFile (dirname ++ "/" ++ String.mk (base p))
              (downloadFile env fs url dirname).2.files = some body) ∧
      (∀ (env : Env) (fs : FS) (dirname path : String),
        path ≠ dirname ++ "/" ++ String.mk (base p) →
          readFile path (downloadFile env fs url dirname).2.files = readFile path fs.files) := by
  have h1 : fileName url = String.mk (base p) := by
    unfold fileName
    rw [hurl, beforeQuery_append rest hrest p hp]
  refine ⟨h1, ?_, ?_, ?_, ?_, ?_⟩
  · rw [h1]
    intro hm
    rcases mem_base _ _ hm with h | h | h
    · exact hp h
    · exact absurd h (by decide)
    · exact absurd h (by decide)
  · intro q
    rw [h1]
    unfold fileName
    rw [beforeQuery_append ('?' :: q) (Or.inr ⟨q, rfl⟩) p hp]
  · intro env fs dirname resp body hget hbody hname hfree
    rw [← h1] at hname hfree ⊢
    obtain ⟨fs1, hcreate⟩ := createFile_ok fs _ hname hfree
    exact downloadFile_stores env fs url dirname resp body hget hbody fs1 hcreate
  · intro env fs dirname hok
    rw [← h1]
    unfold downloadFile at hok
    cases hget : env.httpGet url with
    | error e => rw [hget] at hok; cases hok
    | ok resp =>
      rw [hget] at hok
      simp only at hok
      rcases hcf : createFile fs (dirname ++ "/" ++ fileName url) with ⟨_ | file, fs1⟩
      · rw [hcf] at hok; cases hok
      · rw [hcf] at hok
        have hfile := (createFile_some fs fs1 _ _ hcf).1
        subst hfile
        cases hbody : resp.body with
        | error e => rw [hbody] at hok; cases hok
        | ok body =>
          exact ⟨resp, body, rfl, hbody,
            (downloadFile_stores env fs url dirname resp body hget hbody fs1 hcf).2⟩
  · intro env fs dirname path hne
    rw [← h1] at hne
    have hc := readFile_createFile_ne fs _ path hne
    unfold downloadFile
    cases env.httpGet url with
    | error e => rfl
    | ok resp =>
      simp only
      rcases hcf : createFile fs (dirname ++ "/" ++ fileName url) with ⟨_ | file, fs1⟩
      · rw [hcf] at hc; exact hc
      · rw [hcf] at hc
        have hfile := (createFile_some fs fs1 _ _ hcf).1
        cases resp.body with
        | error e =>
          simp only [writeString]
          rw [readFile_appendFile_ne _ _ _ (hfile ▸ hne)]
          exact hc
        | ok body =>
          simp only [writeString]
          rw [readFile_appendFile_ne _ _ _ (hfile ▸ hne)]
          exact hc

/-- C2 at a product image URL with a query string, downloaded into an
existing directory from a server that answers with the bytes `JPEG`. -/
theorem c2_file_name_drops_query_witness :
    fileName "https://s.alicdn.com/kf/H1.jpg?x=1/a.png?y" = "H1.jpg" ∧
      '?' ∉ (fileName "https://s.alicdn.com/kf/H1.jpg?x=1/a.png?y").data ∧
      readFile "alibaba/1/H1.jpg"
        (downloadFile imageEnv ⟨["alibaba", "alibaba/1"], []⟩
          "https://s.alicdn.com/kf/H1.jpg?x=1/a.png?y" "alibaba/1").2.files = some "JPEG" :=
  have h := c2_file_name_drops_query "https://s.alicdn.com/kf/H1.jpg?x=1/a.png?y"
    "https://s.alicdn.com/kf/H1.jpg".data "?x=1/a.png?y".data (by decide) (by decide)
    (Or.inr ⟨"x=1/a.png?y".data, by decide⟩)
  ⟨h.1.trans (by decide), h.2.1,
    (h.2.2.2.1 imageEnv ⟨["alibaba", "alibaba/1"], []⟩ "alibaba/1" ⟨200, "200 OK", .ok "JPEG"⟩
      "JPEG" rfl rfl (by decide) (Or.inr ⟨by decide, by decide⟩)).2⟩

/-! ## C4 : the price ladder -/

theorem foldl_append_start (ls : List String) :
    ∀ acc : String, ls.foldl (fun r s => r ++ s) acc = acc ++ String.join ls := by
  induction ls with
  | nil => intro acc; simp [String.join]
  | cons l ls ih =>
    intro acc
    have h1 := ih (acc ++ l)
    have h2 := ih ("" ++ l)
    simp only [String.join, List.foldl_cons] at h1 h2 ⊢
    rw [h1, h2, String.append_assoc, String.empty_append]

theorem join_cons (l : String) (ls : List String) :
    String.join (l :: ls) = l ++ String.join ls := by
  have h := foldl_append_start ls ("" ++ l)
  simp only [String.join, List.foldl_cons] at h ⊢
  rw [h, String.empty_append]

theorem appendLines_ok (line : JSON → Res String) :
    ∀ (vs : List JSON) (ls : List String) (acc : String),
      List.Forall₂ (fun v l => line v = .ok l) vs ls →
        appendLines line acc vs = .ok (acc ++ String.join ls)
  | [], _, acc, h => by
    cases h
    simp [appendLines, String.join]
  | v :: vs, _, acc, h => by
    cases h with
    | cons hv hrest =>
      rename_i l ls
      have ih := appendLines_ok line vs ls (acc ++ l) hrest
      simp only [appendLines, hv, ih, join_cons, String.append_assoc]

/-- C4: when `productLadderPrices` is a list of `n` well-formed tiers, the
price block is the concatenation, in input order, of the `n` lines rendered
by the format of line 188 from the tiers' `min`, `max` and `formatPrice`. -/
theorem c4_price_block_one_line_per_tier (env : Env) (price : Obj) (tiers : List JSON)
    (rows : List (Float64 × Float64 × String))
    (hprice : lookup "productLadderPrices" price = some (.arr tiers))
    (hrows : List.Forall₂ IsTier tiers rows) :
    priceValue env price
        = .ok (String.join (rows.map (fun r => tierLine env r.1 r.2.1 r.2.2))) ∧
      (rows.map (fun r => tierLine env r.1 r.2.1 r.2.2)).length = tiers.length ∧
      (∀ (i : Nat) (hi : i < tiers.length) (hr : i < rows.length),
        ladderLine env (tiers.get ⟨i, hi⟩)
          = .ok (tierLine env (rows.get ⟨i, hr⟩).1 (rows.get ⟨i, hr⟩).2.1 (rows.get ⟨i, hr⟩).2.2)) := by
  have hline : ∀ t r, IsTier t r → ladderLine env t = .ok (tierLine env r.1 r.2.1 r.2.2) := by
    rintro t r ⟨m, rfl, h1, h2, h3⟩
    simp [ladderLine, asMap, asFloat, asString, h1, h2, h3]
  have hall : List.Forall₂ (fun v l => ladderLine env v = .ok l) tiers
      (rows.map (fun r => tierLine env r.1 r.2.1 r.2.2)) := by
    rw [List.forall₂_map_right_iff]
    exact hrows.imp hline
  have hlen := hrows.length_eq
  refine ⟨?_, ?_, ?_⟩
  · have h := appendLines_ok (ladderLine env) tiers _ "" hall
    simp only [priceValue, hprice, asSlice, Res.ok_bind, h, String.empty_append]
  · simp [hlen]
  · intro i hi hr
    exact hline _ _ (List.Forall₂.get hrows hi hr)

/-- C4 at a ladder of two tiers: two lines, in input order. -/
theorem c4_price_block_one_line_per_tier_witness :
    priceValue idleEnv [("productLadderPrices", .arr twoTiers)]
      = .ok (">>> 数量: [1 - 9], 价格: $2.00\n" ++ ">>> 数量: [10 - 99], 价格: $1.50\n") :=
  (c4_price_block_one_line_per_tier idleEnv [("productLadderPrices", .arr twoTiers)] twoTiers
    [(⟨1⟩, ⟨9⟩, "$2.00"), (⟨10⟩, ⟨99⟩, "$1.50")] rfl
    (List.Forall₂.cons ⟨_, rfl, rfl, rfl, rfl⟩
      (List.Forall₂.cons ⟨_, rfl, rfl, rfl, rfl⟩ List.Forall₂.nil))).1.trans (by decide)

/-! ## C5, C10 : the image rewrite of `GetDetail` -/

mutual
theorem rewriteNode_rel (R : Element → Element → Prop)
    (hR : ∀ tag attrs cs, R ⟨tag, attrs, cs⟩ ⟨tag, rewrittenAttrs tag attrs, rewriteNodes cs⟩) :
    ∀ n : Node, List.Forall₂ R (nodeElements n) (nodeElements (rewriteNode n))
  | .text _ => by simp [nodeElements, rewriteNode]
  | .comment _ => by simp [nodeElements, rewriteNode]
  | .elem tag attrs cs => by
    simp only [nodeElements, rewriteNode]
    exact List.Forall₂.cons (hR tag attrs cs) (rewriteNodes_rel R hR cs)
theorem rewriteNodes_rel (R : Element → Element → Prop)
    (hR : ∀ tag attrs cs, R ⟨tag, attrs, cs⟩ ⟨tag, rewrittenAttrs tag attrs, rewriteNodes cs⟩) :
    ∀ ns : List Node, List.Forall₂ R (nodesElements ns) (nodesElements (rewriteNodes ns))
  | [] => by simp [nodesElements, rewriteNodes]
  | n :: ns => by
    simp only [nodesElements, rewriteNodes]
    exact List.rel_append (rewriteNode_rel R hR n) (rewriteNodes_rel R hR ns)
end

mutual
theorem nodeText_rewrite : ∀ n : Node, nodeText (rewriteNode n) = nodeText n
  | .text _ => rfl
  | .comment _ => rfl
  | .elem _ _ cs => by
    simp only [rewriteNode, nodeText]
    exact nodesText_rewrite cs
theorem nodesText_rewrite : ∀ ns : List Node, nodesText (rewriteNodes ns) = nodesText ns
  | [] => rfl
  | n :: ns => by
    simp only [rewriteNodes, nodesText]
    rw [nodeText_rewrite n, nodesText_rewrite ns]
end

theorem filter_setAttr (k v : String) :
    ∀ attrs : List (String × String),
      (setAttr k v attrs).filter (fun a => a.1 ≠ k) = attrs.filter (fun a => a.1 ≠ k)
  | [] => by simp [setAttr]
  | (k', v') :: rest => by
    have ih := filter_setAttr k v rest
    simp only [ne_eq, decide_not] at ih
    by_cases h : k' = k
    · simp [setAttr, h]
    · simp [setAttr, h, ih]

theorem attr_setAttr (k v : String) :
    ∀ attrs : List (String × String), attr k (setAttr k v attrs) = some v
  | [] => by simp [setAttr, attr]
  | (k', v') :: rest => by
    have ih := attr_setAttr k v rest
    by_cases h : k' = k
    · simp [setAttr, attr, h]
    · simp [setAttr, attr, h, ih]

/-- C5: the rewrite keeps the number of elements and their document order
(the two element lists correspond position by position, with equal tags),
leaves every element that is no image with its attributes unchanged, leaves
every attribute other than `src` of an image unchanged, and leaves the text
of the document unchanged. -/
theorem c5_rewrite_changes_only_img_src (doc : List Node) :
    (nodesElements (rewriteNodes doc)).length = (nodesElements doc).length ∧
      (nodesElements (rewriteNodes doc)).map Element.tag = (nodesElements doc).map Element.tag ∧
      List.Forall₂ Frame (nodesElements doc) (nodesElements (rewriteNodes doc)) ∧
      nodesText (rewriteNodes doc) = nodesText doc := by
  have hframe : List.Forall₂ Frame (nodesElements doc) (nodesElements (rewriteNodes doc)) := by
    apply rewriteNodes_rel
    intro tag attrs cs
    refine ⟨rfl, ?_, ?_⟩
    · intro h
      simp only [rewrittenAttrs]
      rw [if_neg h]
    · simp only [rewrittenAttrs]
      split
      · exact filter_setAttr "src" _ attrs
      · rfl
  have htag : List.Forall₂ (fun e e' : Element => e'.tag = e.tag) (nodesElements doc)
      (nodesElements (rewriteNodes doc)) := hframe.imp (fun _ _ h => h.1)
  refine ⟨hframe.length_eq.symm, ?_, hframe, nodesText_rewrite doc⟩
  generalize nodesElements doc = es at htag
  generalize nodesElements (rewriteNodes doc) = es' at htag
  induction htag with
  | nil => rfl
  | cons h _ ih => simp [h, ih]

/-- C10: after the rewrite every `img` has a `src` equal to the value of its
`data-src` when it had one, and equal to the empty string when it had none,
whatever its `src` was before. -/
theorem c10_img_src_is_data_src_or_empty (doc : List Node) :
    List.Forall₂ LazySource (nodesElements doc) (nodesElements (rewriteNodes doc)) := by
  apply rewriteNodes_rel
  intro tag attrs cs himg
  have himg' : tag = "img" := himg
  simp only [rewrittenAttrs, if_pos himg']
  refine ⟨?_, ?_⟩
  · intro v hv
    rw [attr_setAttr, hv]; rfl
  · intro hv
    rw [attr_setAttr, hv]; rfl

/-- C10 at an image that has only a `src`: its source is lost. -/
theorem c10_img_src_is_data_src_or_empty_witness :
    attr "src" (match nodesElements (rewriteNodes [.elem "img" [("src", "a.png")] []]) with
      | e :: _ => e.attrs
      | [] => []) = some "" := by
  have h := c10_img_src_is_data_src_or_empty [.elem "img" [("src", "a.png")] []]
  simp only [nodesElements, nodeElements, rewriteNodes, rewriteNode, List.append_nil,
    List.forall₂_cons] at h
  exact (h.1 rfl).2 rfl

/-! ## C7 : the capture of the regular expression -/

theorem dropPrefix_append (s : List Char) : ∀ p : List Char, dropPrefix p (p ++ s) = some s
  | [] => by cases s <;> rfl
  | c :: p => by
    have ih := dropPrefix_append s p
    simp [dropPrefix, ih]

theorem dropPrefix_some : ∀ (p s r : List Char), dropPrefix p s = some r → s = p ++ r
  | [], s, r, h => by
    cases s <;> simp [dropPrefix] at h <;> simp [h]
  | c :: p, [], r, h => by simp [dropPrefix] at h
  | c :: p, d :: s, r, h => by
    by_cases hcd : c = d
    · subst hcd
      simp only [dropPrefix, if_true] at h
      rw [dropPrefix_some p s r h]
      rfl
    · simp [dropPrefix, hcd] at h

theorem dropWhile_spaces (c : Char) (r : List Char) (hc : isSpace c = false) :
    ∀ ws : List Char, (∀ x ∈ ws, isSpace x = true) → (ws ++ c :: r).dropWhile isSpace = c :: r
  | [], _ => by simp [List.dropWhile, hc]
  | x :: ws, h => by
    have hx := h x (List.mem_cons_self _ _)
    have ih := dropWhile_spaces c r hc ws (fun y hy => h y (List.mem_cons_of_mem _ hy))
    simp [List.dropWhile, hx, ih]

theorem takeWhile_line (rest : List Char) (hrest : rest = [] ∨ ∃ r, rest = '\n' :: r) :
    ∀ J : List Char, '\n' ∉ J → (J ++ rest).takeWhile (fun x => x ≠ '\n') = J
  | [], _ => by
    rcases hrest with h | ⟨r, h⟩ <;> subst h <;> simp [List.takeWhile]
  | c :: J, h => by
    have hc : c ≠ '\n' := fun e => h (e ▸ List.mem_cons_self _ _)
    have ih := takeWhile_line rest hrest J (fun hm => h (List.mem_cons_of_mem _ hm))
    simp only [ne_eq, decide_not] at ih
    simp [List.takeWhile, hc, ih]

theorem containsSub_cons (sub : List Char) (c : Char) (cs : List Char) :
    containsSub sub (c :: cs) = (sub.isPrefixOf (c :: cs) || containsSub sub cs) := rfl

theorem findSubmatch_cons (c : Char) (cs : List Char) :
    findSubmatch (c :: cs)
      = match matchHere (c :: cs) with
        | some m => some m
        | none => findSubmatch cs := rfl

theorem containsSub_append (sub tail : List Char) (hsub : sub ≠ []) :
    ∀ pre : List Char, containsSub sub (pre ++ (sub ++ tail)) = true
  | [] => by
    cases sub with
    | nil => exact absurd rfl hsub
    | cons c sub =>
      have h : (c :: sub).isPrefixOf (c :: (sub ++ tail)) = true := by
        rw [List.isPrefixOf_iff_prefix]
        exact ⟨tail, rfl⟩
      rw [List.nil_append, List.cons_append, containsSub_cons, h, Bool.true_or]
  | x :: pre => by
    have ih := containsSub_append sub tail hsub pre
    rw [List.cons_append, containsSub_cons, ih, Bool.or_true]

theorem findSubmatch_of_matchHere (s m : List Char) (h : matchHere s = some m) :
    findSubmatch s = some m := by
  cases s with
  | nil =>
    have hnil : matchHere [] = none := by decide
    rw [hnil] at h
    cases h
  | cons c cs => rw [findSubmatch_cons, h]

theorem matchHere_assignment (ws1 ws2 J rest : List Char)
    (hws1 : ∀ x ∈ ws1, isSpace x = true) (hws2 : ∀ x ∈ ws2, isSpace x = true)
    (hJ0 : ∃ c J', J = c :: J' ∧ isSpace c = false) (hJ : '\n' ∉ J)
    (hrest : rest = [] ∨ ∃ r, rest = '\n' :: r) :
    matchHere (marker ++ (ws1 ++ '=' :: (ws2 ++ (J ++ rest)))) = some J := by
  obtain ⟨c, J', hc, hsp⟩ := hJ0
  have h1 : (ws1 ++ '=' :: (ws2 ++ (J ++ rest))).dropWhile isSpace
      = '=' :: (ws2 ++ (J ++ rest)) := dropWhile_spaces '=' _ (by decide) ws1 hws1
  have h2 : (ws2 ++ (J ++ rest)).dropWhile isSpace = J ++ rest := by
    rw [hc]
    exact dropWhile_spaces c (J' ++ rest) hsp ws2 hws2
  have h3 := takeWhile_line rest hrest J hJ
  unfold matchHere
  rw [dropPrefix_append]
  simp only [h1, h2, h3, if_true]

theorem matchHere_of_assigns (b : List Char) (h : Assigns b) :
    ∃ cap, matchHere (marker ++ b) = some cap := by
  obtain ⟨ws, r, hws, hb⟩ := h
  have h1 : (ws ++ '=' :: r).dropWhile isSpace = '=' :: r :=
    dropWhile_spaces '=' r (by decide) ws hws
  unfold matchHere
  rw [dropPrefix_append, hb]
  simp only [h1, if_true]
  exact ⟨_, rfl⟩

theorem matchHere_none_of_not_assigns (s : List Char)
    (h : ∀ r, s = marker ++ r → ¬ Assigns r) : matchHere s = none := by
  unfold matchHere
  cases hd : dropPrefix marker s with
  | none => rfl
  | some r =>
    have hr := h r (dropPrefix_some _ _ _ hd)
    simp only
    cases hw : r.dropWhile isSpace with
    | nil => rfl
    | cons c r' =>
      simp only
      by_cases hc : c = '='
      · exfalso
        apply hr
        refine ⟨r.takeWhile isSpace, r', ?_, ?_⟩
        · intro x hx
          exact (List.mem_takeWhile_imp hx)
        · have := List.takeWhile_append_dropWhile isSpace r
          rw [hw, hc] at this
          exact this.symm
      · rw [if_neg hc]

theorem findSubmatch_first (tail J : List Char) (hm : matchHere (marker ++ tail) = some J) :
    ∀ pre : List Char,
      (∀ a b, pre ++ (marker ++ tail) = a ++ (marker ++ b) → a.length < pre.length →
        ¬ Assigns b) →
        findSubmatch (pre ++ (marker ++ tail)) = some J
  | [], _ => findSubmatch_of_matchHere _ _ hm
  | c :: pre, h => by
    have hnone : matchHere (c :: (pre ++ (marker ++ tail))) = none := by
      apply matchHere_none_of_not_assigns
      intro r hr
      exact h [] r (by simpa using hr) (by simp)
    have ih := findSubmatch_first tail J hm pre (by
      intro a b hab hlt
      exact h (c :: a) b (by simp [hab]) (by simpa using hlt))
    rw [List.cons_append, findSubmatch_cons, hnone]
    exact ih

/-- C7 as stated fails, twice.  For the script `window.detailData = J` with
`J` the two-line text `twoLineJSON`, which runs to the end of the script and
is well-formed JSON, the capture is only `{`, the part of `J` before its line
feed, and the callback panics instead of decoding `J`.  And for the one-line
script `window.detailData = 1;window.detailData = 2`, which contains the
assignment of `J = 2` running to the end of the script, the capture is what
follows the first assignment, not `2`. -/
theorem c7_capture_stops_at_line_feed :
    findSubmatch ("window.detailData = " ++ twoLineJSON).data = some "\x7b".data ∧
      "\x7b".data ≠ twoLineJSON.data ∧
      (∃ m, twoLineEnv.parseJSON twoLineJSON = some (.obj m)) ∧
      scriptStep twoLineEnv none ("window.detailData = " ++ twoLineJSON) = .panic ∧
      findSubmatch "window.detailData = 1;window.detailData = 2".data
        = some "1;window.detailData = 2".data ∧
      "1;window.detailData = 2".data ≠ "2".data := by
  refine ⟨by decide, by decide, ⟨_, rfl⟩, rfl, by decide, by decide⟩

/-- C7, amended: in a script text `pre ++ marker ++ ws1 ++ "=" ++ ws2 ++ J ++
rest` where this is the first assignment (a mention of the marker that starts
inside `pre` is not followed, after white space, by `=`; such mentions are
skipped), `ws1` and `ws2` are white space, `J` starts with a character that
is no white space and has no line feed, and `rest` is empty or starts with a
line feed, the capture is exactly `J`: everything after the assignment token
and the white space that follows it, up to the first line feed or the end of
the text.  The callback then decodes exactly `J`: when `J` denotes an object,
that object is the decoded document. -/
theorem c7_capture_is_rest_of_line (env : Env) (pre ws1 ws2 J rest : List Char)
    (hfirst : ∀ a b, pre ++ (marker ++ (ws1 ++ '=' :: (ws2 ++ (J ++ rest)))) = a ++ (marker ++ b) →
      a.length < pre.length → ¬ Assigns b)
    (hws1 : ∀ x ∈ ws1, isSpace x = true) (hws2 : ∀ x ∈ ws2, isSpace x = true)
    (hJ0 : ∃ c J', J = c :: J' ∧ isSpace c = false) (hJ : '\n' ∉ J)
    (hrest : rest = [] ∨ ∃ r, rest = '\n' :: r) :
    findSubmatch (pre ++ (marker ++ (ws1 ++ '=' :: (ws2 ++ (J ++ rest))))) = some J ∧
      ∀ m, env.parseJSON (String.mk J) = some (.obj m) →
        scriptStep env none (String.mk (pre ++ (marker ++ (ws1 ++ '=' :: (ws2 ++ (J ++ rest))))))
          = .ok (some m) := by
  have hm := matchHere_assignment ws1 ws2 J rest hws1 hws2 hJ0 hJ hrest
  have hf := findSubmatch_first _ J hm pre hfirst
  refine ⟨hf, ?_⟩
  intro m hparse
  have hc := containsSub_append marker (ws1 ++ '=' :: (ws2 ++ (J ++ rest))) (by decide) pre
  have hne : pre ++ (marker ++ (ws1 ++ '=' :: (ws2 ++ (J ++ rest)))) ≠ [] := by
    intro h
    have h' := congrArg List.length h
    have hlen : marker.length = 17 := by decide
    simp only [List.length_append, List.length_nil, hlen] at h'
    omega
  have hskip : skipped (String.mk (pre ++ (marker ++ (ws1 ++ '=' :: (ws2 ++ (J ++ rest))))))
      = false := by
    simp [skipped, hne, hc]
  unfold scriptStep
  simp only [hskip, hf, unmarshal, hparse]
  simp

/-- The amended C7 at a script that first mentions the marker without
assigning to it, then assigns the one-line document and goes on with another
line. -/
theorem c7_capture_is_rest_of_line_witness :
    findSubmatch mentionScript.data = some "\x7b\"a\":1\x7d".data ∧
      scriptStep oneLineEnv none mentionScript = .ok (some [("a", .num ⟨1⟩)]) :=
  have hnone : ∀ i, i < 27 → matchHere (mentionScript.data.drop i) = none := by decide
  have h := c7_capture_is_rest_of_line oneLineEnv "var d = window.detailData; ".data " ".data
    " ".data "\x7b\"a\":1\x7d".data "\nvar y;".data
    (by
      intro a b hab hlt
      intro hassign
      obtain ⟨cap, hcap⟩ := matchHere_of_assigns b hassign
      have hdrop : mentionScript.data.drop a.length = marker ++ b := by
        have hs : mentionScript.data = a ++ (marker ++ b) := hab
        rw [hs, List.drop_left]
      have := hnone a.length hlt
      rw [hdrop, hcap] at this
      cases this)
    (by decide) (by decide) ⟨'{', "\"a\":1\x7d".data, by decide, by decide⟩ (by decide)
    (Or.inr ⟨"var y;".data, by decide⟩)
  ⟨h.1, h.2 _ rfl⟩

/-! ## C6 : several script elements with the marker -/

theorem lookup_append (k : String) (old : Obj) :
    ∀ m : Obj, lookup k (m ++ old)
      = match lookup k m with
        | some v => some v
        | none => lookup k old
  | [] => rfl
  | (k', v) :: m => by
    have ih := lookup_append k old m
    by_cases h : k' = k
    · simp [lookup, h]
    · simp only [List.cons_append, lookup, if_neg h]
      exact ih

theorem eachScript_merges (env : Env) :
    ∀ (scripts : List String) (docs : List Obj) (sp : Option Obj),
      List.Forall₂ (Decodes env) (scripts.filter (fun c => !skipped c)) docs →
        ∃ sp', eachScript env sp scripts = .ok sp' ∧
          ∀ k, lookupNil k sp' = lastWins k docs (lookupNil k sp)
  | [], docs, sp, h => by
    simp only [List.filter_nil] at h
    cases h
    exact ⟨sp, rfl, fun _ => rfl⟩
  | c :: cs, docs, sp, h => by
    by_cases hskip : skipped c = true
    · have hf : (c :: cs).filter (fun c => !skipped c) = cs.filter (fun c => !skipped c) := by
        simp [List.filter, hskip]
      rw [hf] at h
      obtain ⟨sp', h1, h2⟩ := eachScript_merges env cs docs sp h
      refine ⟨sp', ?_, h2⟩
      simp only [eachScript, scriptStep, hskip, if_true, h1]
    · have hskip' : skipped c = false := by simpa using hskip
      have hf : (c :: cs).filter (fun c => !skipped c)
          = c :: cs.filter (fun c => !skipped c) := by
        simp [List.filter, hskip']
      rw [hf] at h
      cases h with
      | cons hd htl =>
        rename_i m docs'
        obtain ⟨cap, hcap, hparse⟩ := hd
        obtain ⟨sp', h1, h2⟩ := eachScript_merges env cs docs' (some (m ++ sp.getD [])) htl
        refine ⟨sp', ?_, ?_⟩
        · simp [eachScript, scriptStep, hskip', hcap, unmarshal, hparse, h1]
        · intro k
          rw [h2 k]
          simp only [lastWins, List.foldl_cons, lookupNil, Option.getD_some, lookup_append]

/-- C6 as stated fails: on `twoScriptPage` both script elements carry the
marker, the first alone decodes to the product 1, and the document `GetURL`
goes on with is that of the product 2, read from the second element. -/
theorem c6_later_script_overrides_first :
    scriptTexts twoScriptPage
        = ["window.detailData = " ++ firstJSON, "window.detailData = " ++ secondJSON] ∧
      (scriptTexts twoScriptPage).map skipped = [false, false] ∧
      ((scriptStep twoDocEnv none ("window.detailData = " ++ firstJSON) >>= pageData twoDocEnv)
          >>= fun d => Res.ok d.2.2) = .ok "1" ∧
      ((eachScript twoDocEnv none (scriptTexts twoScriptPage) >>= pageData twoDocEnv)
          >>= fun d => Res.ok d.2.2) = .ok "2" := by
  refine ⟨by decide, by decide, by decide, by decide⟩

/-- C6, amended: when every script element that carries the marker decodes to
an object, all of them are stored, in document order, into the same map: the
iteration succeeds and the decoded document holds for every top-level key the
value given by the last matching script element that has the key.  The first
matching element decides a key only when no later matching element has it. -/
theorem c6_last_matching_script_wins (env : Env) (doc : List Node) (docs : List Obj)
    (hdocs : List.Forall₂ (Decodes env) ((scriptTexts doc).filter (fun c => !skipped c)) docs) :
    ∃ sp, eachScript env none (scriptTexts doc) = .ok sp ∧
      ∀ k, lookupNil k sp = lastWins k docs none := by
  obtain ⟨sp, h1, h2⟩ := eachScript_merges env (scriptTexts doc) docs none hdocs
  exact ⟨sp, h1, fun k => by rw [h2 k]; rfl⟩

/-- The amended C6 on `twoScriptPage`: `globalData` is that of the second
script element. -/
theorem c6_last_matching_script_wins_witness :
    ∃ sp, eachScript twoDocEnv none (scriptTexts twoScriptPage) = .ok sp ∧
      ∀ k, lookupNil k sp
        = lastWins k [[("globalData", .obj [("product", .obj [("productId", .num ⟨1⟩)])])],
                      [("globalData", .obj [("product", .obj [("productId", .num ⟨2⟩)])])]] none :=
  c6_last_matching_script_wins twoDocEnv twoScriptPage _
    (List.Forall₂.cons ⟨firstJSON.data, by decide, rfl⟩
      (List.Forall₂.cons ⟨secondJSON.data, by decide, rfl⟩ List.Forall₂.nil))

/-! ## C8 : failures of the fetch and of the top-level parsing -/

theorem scriptStep_ne_err (env : Env) (sp : Option Obj) (c e : String) :
    scriptStep env sp c ≠ .err e := by
  unfold scriptStep
  split
  · simp
  · split
    · simp
    · split <;> simp

theorem scriptStep_decodeFails (env : Env) (sp : Option Obj) (c : String)
    (h : DecodeFails env c) : scriptStep env sp c = .panic := by
  unfold scriptStep
  rw [h.1]
  simp only [Bool.false_eq_true, if_false]
  cases hcap : findSubmatch c.data with
  | none => rfl
  | some cap =>
    obtain ⟨e, he⟩ := h.2 cap hcap sp
    simp only [he]

theorem eachScript_decodeFails (env : Env) (c : String) (h : DecodeFails env c) :
    ∀ (scripts : List String) (sp : Option Obj), c ∈ scripts →
      eachScript env sp scripts = .panic
  | [], _, hmem => by simp at hmem
  | d :: ds, sp, hmem => by
    unfold eachScript
    cases hstep : scriptStep env sp d with
    | panic => rfl
    | err e => exact absurd hstep (scriptStep_ne_err env sp d e)
    | ok sp' =>
      rcases List.mem_cons.mp hmem with hcd | hin
      · subst hcd
        rw [scriptStep_decodeFails env sp c h] at hstep
        cases hstep
      · exact eachScript_decodeFails env c h ds sp' hin

/-- C8 as stated fails: with `brokenJsonEnv` the page is fetched and parsed as
HTML but its embedded JSON cannot be decoded; `GetURL` does not return an error
to its caller, it panics, and the loop of `main` ends there instead of going
on with the next URL. -/
theorem c8_undecodable_json_panics :
    ParseFails brokenJsonEnv "a.html" ∧
      (GetURL brokenJsonEnv ⟨⟨["alibaba"], []⟩, [], 0⟩ "a.html").1 = .panic ∧
      (∀ e, (GetURL brokenJsonEnv ⟨⟨["alibaba"], []⟩, [], 0⟩ "a.html").1 ≠ .err e) ∧
      mainLoop brokenJsonEnv ⟨⟨["alibaba"], []⟩, [], 0⟩ ["a.html", "b.html"]
        = (.panic, ⟨⟨["alibaba"], []⟩, [], 0⟩) := by
  have hrun : (GetURL brokenJsonEnv ⟨⟨["alibaba"], []⟩, [], 0⟩ "a.html").1 = .panic := by decide
  refine ⟨⟨⟨200, "200 OK", .ok "<html>"⟩, rfl, rfl, Or.inr ⟨_, rfl, _, List.mem_singleton.mpr rfl,
    by decide, ?_⟩⟩, hrun, ?_, by decide⟩
  · intro cap hcap sp
    exact ⟨_, rfl⟩
  · intro e he
    rw [hrun] at he
    cases he

/-- C8, amended: when the page fetch fails (transport error or a status other
than 200) `GetURL` returns an error and changes nothing, and the loop of
`main` goes on with the next URL; when the page is fetched but fails the
top-level parsing (the HTML cannot be parsed, or a script with the marker
cannot be decoded) `GetURL` panics and the loop of `main` ends with that
panic, the remaining URLs unvisited. -/
theorem c8_fetch_error_skips_parse_error_panics (env : Env) (w : World) (v : String)
    (rest : List String) :
    (FetchFails env v →
      (∃ e, GetURL env w v = (.err e, w)) ∧ mainLoop env w (v :: rest) = mainLoop env w rest) ∧
    (ParseFails env v →
      GetURL env w v = (.panic, w) ∧ mainLoop env w (v :: rest) = (.panic, w)) := by
  constructor
  · intro h
    have hget : ∃ e, GetURL env w v = (.err e, w) := by
      rcases h with ⟨e, he⟩ | ⟨resp, hresp, hstatus⟩
      · exact ⟨e, by simp [GetURL, he]⟩
      · exact ⟨"status code error: " ++ resp.status, by simp [GetURL, hresp, hstatus]⟩
    refine ⟨hget, ?_⟩
    obtain ⟨e, he⟩ := hget
    simp [mainLoop, he]
  · intro h
    have hget : GetURL env w v = (.panic, w) := by
      obtain ⟨resp, hresp, hstatus, hparse⟩ := h
      rcases hparse with ⟨e, he⟩ | ⟨doc, hdoc, c, hc, hfail⟩
      · simp [GetURL, hresp, hstatus, he]
      · have hp := eachScript_decodeFails env c hfail (scriptTexts doc) none hc
        simp [GetURL, hresp, hstatus, hdoc, hp]
    refine ⟨hget, ?_⟩
    simp [mainLoop, hget]

/-- The amended C8 at a page answered with 404 and at the page of
`brokenJsonEnv`. -/
theorem c8_fetch_error_skips_parse_error_panics_witness :
    (mainLoop notFoundEnv ⟨⟨["alibaba"], []⟩, [], 0⟩ ["a.html", "b.html"]
        = mainLoop notFoundEnv ⟨⟨["alibaba"], []⟩, [], 0⟩ ["b.html"]) ∧
      GetURL brokenJsonEnv ⟨⟨["alibaba"], []⟩, [], 0⟩ "a.html"
        = (.panic, ⟨⟨["alibaba"], []⟩, [], 0⟩) :=
  ⟨((c8_fetch_error_skips_parse_error_panics notFoundEnv ⟨⟨["alibaba"], []⟩, [], 0⟩ "a.html"
      ["b.html"]).1 (Or.inr ⟨⟨404, "404 Not Found", .ok ""⟩, rfl, by decide⟩)).2,
   ((c8_fetch_error_skips_parse_error_panics brokenJsonEnv ⟨⟨["alibaba"], []⟩, [], 0⟩ "a.html"
      []).2 ⟨⟨200, "200 OK", .ok "<html>"⟩, rfl, rfl,
        Or.inr ⟨_, rfl, _, List.mem_singleton.mpr rfl, by decide,
          fun _ _ _ => ⟨_, rfl⟩⟩⟩).1⟩

/-! ## C3 : a description endpoint that does not answer 200 -/

set_option maxRecDepth 20000

theorem html_ne_txt (a : String) : a ++ ".html" ≠ a ++ ".txt" := by
  intro h
  have h1 := congrArg String.data h
  simp only [String.data_append] at h1
  have h2 := List.append_cancel_left h1
  revert h2
  decide

theorem mkdir_files (fs : FS) (p : String) : (mkdir fs p).files = fs.files := by
  unfold mkdir
  split <;> rfl

theorem openAppend_dirs (fs : FS) (p : String) : (openAppend fs p).2.dirs = fs.dirs := by
  unfold openAppend
  split
  · rfl
  · split <;> rfl

theorem writeString_dirs (fs : FS) (f : Option String) (s : String) :
    (writeString fs f s).dirs = fs.dirs := by
  cases f <;> rfl

theorem parentExists_congr (fs fs' : FS) (p : String) (h : fs.dirs = fs'.dirs) :
    parentExists fs p = parentExists fs' p := by
  unfold parentExists
  rw [h]

theorem openAppend_handle (fs : FS) (p f : String) (h : (openAppend fs p).1 = some f) :
    f = p := by
  unfold openAppend at h
  split at h
  · cases h; rfl
  · split at h
    · cases h
    · cases h; rfl

theorem readFile_openAppend_ne (fs : FS) (p q : String) (hne : q ≠ p) :
    readFile q (openAppend fs p).2.files = readFile q fs.files := by
  unfold openAppend
  split
  · rfl
  · split
    · rfl
    · exact readFile_append_ne p q "" hne _

theorem readFile_openAppend_some (fs : FS) (p c : String) (h : readFile p fs.files = some c) :
    readFile p (openAppend fs p).2.files = some c := by
  unfold openAppend
  rw [h]
  simpa using h

theorem readFile_openAppend_none (fs : FS) (p : String) (h : readFile p fs.files = none) :
    (readFile p (openAppend fs p).2.files = none ∨
        readFile p (openAppend fs p).2.files = some "") ∧
      (p ∉ fs.dirs → parentExists fs p = true →
        readFile p (openAppend fs p).2.files = some "") := by
  unfold openAppend
  rw [h]
  simp only [Option.isSome_none, Bool.false_eq_true, if_false]
  by_cases hfail : p ∈ fs.dirs ∨ parentExists fs p = false
  · rw [if_pos hfail]
    refine ⟨Or.inl h, ?_⟩
    intro hd hp
    rcases hfail with h1 | h1
    · exact absurd h1 hd
    · rw [hp] at h1; cases h1
  · rw [if_neg hfail]
    exact ⟨Or.inr (readFile_append_new p "" _ h), fun _ _ => readFile_append_new p "" _ h⟩

theorem readFile_written_ne (fs : FS) (p q s : String) (hne : q ≠ p) :
    readFile q (writeString (openAppend fs p).2 (openAppend fs p).1 s).files
      = readFile q fs.files := by
  cases hf : (openAppend fs p).1 with
  | none => exact readFile_openAppend_ne fs p q hne
  | some f =>
    have hfp := openAppend_handle fs p f hf
    subst hfp
    simp only [writeString]
    rw [readFile_appendFile_ne _ _ _ hne]
    exact readFile_openAppend_ne fs f q hne

theorem mediaLoop_fs (targetDir : String) :
    ∀ (media : List JSON) (w : World), (mediaLoop targetDir w media).2.fs = w.fs
  | [], _ => rfl
  | v :: vs, w => by
    unfold mediaLoop
    cases mediumURL v with
    | ok o =>
      cases o with
      | none => exact mediaLoop_fs targetDir vs w
      | some u => exact mediaLoop_fs targetDir vs _
    | err e => rfl
    | panic => rfl

theorem writeDescription_non_200 (env : Env) (id : String) (resp : Response)
    (hget : env.httpGet (descURL id) = .ok resp) (hstatus : resp.statusCode ≠ 200)
    (fs : FS) (targetDir : String) :
    writeDescription env fs targetDir id
      = (.ok (), (openAppend fs (targetDir ++ "/" ++ id ++ ".html")).2) := by
  have hdetail : GetDetail env id = .err ("status code error: " ++ resp.status) := by
    simp [GetDetail, hget, hstatus]
  simp [writeDescription, hdetail]

theorem writeFiles_non_200 (env : Env) (id : String) (resp : Response)
    (hget : env.httpGet (descURL id) = .ok resp) (hstatus : resp.statusCode ≠ 200)
    (w : World) (doc : List Node) (g p : Obj) :
    (∀ c, readFile (dir ++ "/" ++ id ++ "/" ++ id ++ ".html") w.fs.files = some c →
        readFile (dir ++ "/" ++ id ++ "/" ++ id ++ ".html")
          (writeFiles env w doc g p id).2.fs.files = some c) ∧
      (readFile (dir ++ "/" ++ id ++ "/" ++ id ++ ".html") w.fs.files = none →
        (readFile (dir ++ "/" ++ id ++ "/" ++ id ++ ".html")
            (writeFiles env w doc g p id).2.fs.files = none ∨
          readFile (dir ++ "/" ++ id ++ "/" ++ id ++ ".html")
            (writeFiles env w doc g p id).2.fs.files = some "") ∧
        ((writeFiles env w doc g p id).1 = .ok () →
          dir ++ "/" ++ id ++ "/" ++ id ++ ".html" ∉ (mkdir w.fs (dir ++ "/" ++ id)).dirs →
          parentExists (mkdir w.fs (dir ++ "/" ++ id))
            (dir ++ "/" ++ id ++ "/" ++ id ++ ".html") = true →
          readFile (dir ++ "/" ++ id ++ "/" ++ id ++ ".html")
            (writeFiles env w doc g p id).2.fs.files = some "")) := by
  have hne : dir ++ "/" ++ id ++ "/" ++ id ++ ".html" ≠ dir ++ "/" ++ id ++ "/" ++ id ++ ".txt" :=
    html_ne_txt _
  have hopen : readFile (dir ++ "/" ++ id ++ "/" ++ id ++ ".html")
      (openAppend (mkdir w.fs (dir ++ "/" ++ id)) (dir ++ "/" ++ id ++ "/" ++ id ++ ".txt")).2.files
      = readFile (dir ++ "/" ++ id ++ "/" ++ id ++ ".html") w.fs.files := by
    rw [readFile_openAppend_ne _ _ _ hne, mkdir_files]
  have hwritten : ∀ content, readFile (dir ++ "/" ++ id ++ "/" ++ id ++ ".html")
      (writeString
        (openAppend (mkdir w.fs (dir ++ "/" ++ id)) (dir ++ "/" ++ id ++ "/" ++ id ++ ".txt")).2
        (openAppend (mkdir w.fs (dir ++ "/" ++ id)) (dir ++ "/" ++ id ++ "/" ++ id ++ ".txt")).1
        content).files
      = readFile (dir ++ "/" ++ id ++ "/" ++ id ++ ".html") w.fs.files := by
    intro content
    rw [readFile_written_ne _ _ _ _ hne, mkdir_files]
  have hdirs : ∀ content, (writeString
        (openAppend (mkdir w.fs (dir ++ "/" ++ id)) (dir ++ "/" ++ id ++ "/" ++ id ++ ".txt")).2
        (openAppend (mkdir w.fs (dir ++ "/" ++ id)) (dir ++ "/" ++ id ++ "/" ++ id ++ ".txt")).1
        content).dirs = (mkdir w.fs (dir ++ "/" ++ id)).dirs := by
    intro content
    rw [writeString_dirs, openAppend_dirs]
  cases hrep : reportContent env g p (metaContent "keywords" doc) (metaContent "description" doc) with
  | err e =>
    have hw : (writeFiles env w doc g p id).1 = .err e ∧ (writeFiles env w doc g p id).2.fs
        = (openAppend (mkdir w.fs (dir ++ "/" ++ id))
            (dir ++ "/" ++ id ++ "/" ++ id ++ ".txt")).2 := by
      simp [writeFiles, hrep]
    rw [hw.2, hopen]
    refine ⟨fun c hc => hc, fun hn => ⟨Or.inl hn, ?_⟩⟩
    intro hok
    rw [hw.1] at hok
    cases hok
  | panic =>
    have hw : (writeFiles env w doc g p id).1 = .panic ∧ (writeFiles env w doc g p id).2.fs
        = (openAppend (mkdir w.fs (dir ++ "/" ++ id))
            (dir ++ "/" ++ id ++ "/" ++ id ++ ".txt")).2 := by
      simp [writeFiles, hrep]
    rw [hw.2, hopen]
    refine ⟨fun c hc => hc, fun hn => ⟨Or.inl hn, ?_⟩⟩
    intro hok
    rw [hw.1] at hok
    cases hok
  | ok content =>
    have hw : (writeFiles env w doc g p id).2.fs
        = (openAppend (writeString
            (openAppend (mkdir w.fs (dir ++ "/" ++ id))
              (dir ++ "/" ++ id ++ "/" ++ id ++ ".txt")).2
            (openAppend (mkdir w.fs (dir ++ "/" ++ id))
              (dir ++ "/" ++ id ++ "/" ++ id ++ ".txt")).1 content)
            (dir ++ "/" ++ id ++ "/" ++ id ++ ".html")).2 := by
      simp [writeFiles, hrep, writeDescription_non_200 env id resp hget hstatus]
    rw [hw]
    refine ⟨?_, ?_⟩
    · intro c hc
      exact readFile_openAppend_some _ _ c ((hwritten content).trans hc)
    · intro hn
      have hnone := (hwritten content).trans hn
      have h := readFile_openAppend_none _ _ hnone
      refine ⟨h.1, ?_⟩
      intro _ hd hp
      refine h.2 ?_ ?_
      · rw [hdirs content]; exact hd
      · rw [parentExists_congr _ (mkdir w.fs (dir ++ "/" ++ id)) _ (hdirs content)]
        exact hp

theorem getURL_reaches_writeFiles (env : Env) (w : World) (rawURL : String) (resp : Response)
    (doc : List Node) (g p : Obj) (id : String)
    (hpage : env.pageGet rawURL = .ok resp) (h200 : resp.statusCode = 200)
    (hdoc : (resp.body >>= env.parseHTML) = .ok doc)
    (hdata : (eachScript env none (scriptTexts doc) >>= pageData env) = .ok (g, p, id)) :
    ∃ w1 : World, w1.fs = w.fs ∧
      (((GetURL env w rawURL).2 = w1 ∧ (GetURL env w rawURL).1 ≠ .ok ()) ∨
        GetURL env w rawURL = writeFiles env w1 doc g p id) := by
  unfold GetURL
  simp only [hpage, h200, ne_eq, not_true_eq_false, if_false, hdoc, hdata]
  cases asSlice (lookup "mediaItems" p) with
  | err e => exact ⟨w, rfl, Or.inl ⟨rfl, by simp⟩⟩
  | panic => exact ⟨w, rfl, Or.inl ⟨rfl, by simp⟩⟩
  | ok media =>
    simp only
    have hfs := mediaLoop_fs (dir ++ "/" ++ id) media w
    rcases hm : mediaLoop (dir ++ "/" ++ id) w media with ⟨r, w1⟩
    rw [hm] at hfs
    cases r with
    | err e => exact ⟨w1, hfs, Or.inl ⟨rfl, by simp⟩⟩
    | panic => exact ⟨w1, hfs, Or.inl ⟨rfl, by simp⟩⟩
    | ok u => exact ⟨w1, hfs, Or.inr rfl⟩

/-- C3 as stated fails in its second half: with `noDescriptionEnv` the
description endpoint answers 404 and `GetDetail` returns the error, yet
`GetURL`, started on a disk that holds only the directory made by `init`,
ends normally with the description file `<id>.html` on disk, created empty by
the `os.OpenFile` that precedes the call of `GetDetail`. -/
theorem c3_description_file_exists_after_404 :
    (∃ resp, noDescriptionEnv.httpGet (descURL "1600155582218") = .ok resp ∧
        resp.statusCode ≠ 200) ∧
      GetDetail noDescriptionEnv "1600155582218" = .err "status code error: 404 Not Found" ∧
      readFile "alibaba/1600155582218/1600155582218.html" (init ⟨[], []⟩).files = none ∧
      (GetURL noDescriptionEnv ⟨init ⟨[], []⟩, [], 0⟩ "a.html").1 = .ok () ∧
      readFile "alibaba/1600155582218/1600155582218.html"
        (GetURL noDescriptionEnv ⟨init ⟨[], []⟩, [], 0⟩ "a.html").2.fs.files = some "" := by
  refine ⟨⟨⟨404, "404 Not Found", .ok ""⟩, rfl, by decide⟩, by decide, by decide, by decide,
    by decide⟩

/-- C3, amended: let `GetURL` fetch and decode a page of the product `id`, and
let the description endpoint answer for `id` with a status other than 200.
Then `GetDetail` returns the error `status code error: <status>` (and the
empty string), and `GetURL` writes no content to `<id>.html`, whatever its own
outcome: (1) a file `<id>.html` that existed before `GetURL` holds the same
content after it; (2) a file that did not exist is absent or empty after it;
(3) when `GetURL` ends without error and the file could be created (the path
is no directory and its directory exists once the product directory is
made), the file exists after it, empty; (4) the description part of `GetURL`
does nothing but open the file. -/
theorem c3_non_200_opens_but_writes_nothing (env : Env) (w : World) (rawURL : String)
    (resp : Response) (doc : List Node) (g p : Obj) (id : String) (dresp : Response)
    (hpage : env.pageGet rawURL = .ok resp) (h200 : resp.statusCode = 200)
    (hdoc : (resp.body >>= env.parseHTML) = .ok doc)
    (hdata : (eachScript env none (scriptTexts doc) >>= pageData env) = .ok (g, p, id))
    (hget : env.httpGet (descURL id) = .ok dresp) (hstatus : dresp.statusCode ≠ 200) :
    GetDetail env id = .err ("status code error: " ++ dresp.status) ∧
      (∀ c, readFile (dir ++ "/" ++ id ++ "/" ++ id ++ ".html") w.fs.files = some c →
        readFile (dir ++ "/" ++ id ++ "/" ++ id ++ ".html")
          (GetURL env w rawURL).2.fs.files = some c) ∧
      (readFile (dir ++ "/" ++ id ++ "/" ++ id ++ ".html") w.fs.files = none →
        readFile (dir ++ "/" ++ id ++ "/" ++ id ++ ".html")
            (GetURL env w rawURL).2.fs.files = none ∨
          readFile (dir ++ "/" ++ id ++ "/" ++ id ++ ".html")
            (GetURL env w rawURL).2.fs.files = some "") ∧
      ((GetURL env w rawURL).1 = .ok () →
        readFile (dir ++ "/" ++ id ++ "/" ++ id ++ ".html") w.fs.files = none →
        dir ++ "/" ++ id ++ "/" ++ id ++ ".html" ∉ (mkdir w.fs (dir ++ "/" ++ id)).dirs →
        parentExists (mkdir w.fs (dir ++ "/" ++ id))
          (dir ++ "/" ++ id ++ "/" ++ id ++ ".html") = true →
        readFile (dir ++ "/" ++ id ++ "/" ++ id ++ ".html")
          (GetURL env w rawURL).2.fs.files = some "") ∧
      (∀ (fs : FS) (targetDir : String),
        writeDescription env fs targetDir id
          = (.ok (), (openAppend fs (targetDir ++ "/" ++ id ++ ".html")).2)) := by
  have hdetail : GetDetail env id = .err ("status code error: " ++ dresp.status) := by
    simp [GetDetail, hget, hstatus]
  obtain ⟨w1, hfs, hrun⟩ := getURL_reaches_writeFiles env w rawURL resp doc g p id hpage h200
    hdoc hdata
  have hwf := writeFiles_non_200 env id dresp hget hstatus w1 doc g p
  rw [hfs] at hwf
  refine ⟨hdetail, ?_, ?_, ?_, writeDescription_non_200 env id dresp hget hstatus⟩
  · intro c hc
    rcases hrun with ⟨h2, _⟩ | h
    · rw [h2, hfs]; exact hc
    · rw [h]; exact hwf.1 c hc
  · intro hn
    rcases hrun with ⟨h2, _⟩ | h
    · rw [h2, hfs]; exact Or.inl hn
    · rw [h]; exact (hwf.2 hn).1
  · intro hok hn hd hp
    rcases hrun with ⟨_, hne⟩ | h
    · exact absurd hok hne
    · rw [h] at hok ⊢
      exact (hwf.2 hn).2 hok hd hp

/-- The amended C3 at `noDescriptionEnv`: on a disk where the description
file already holds a text, the text is there unchanged after `GetURL`; on the
disk left by `init` the file is there, empty. -/
theorem c3_non_200_opens_but_writes_nothing_witness :
    GetDetail noDescriptionEnv "1600155582218" = .err "status code error: 404 Not Found" ∧
      readFile "alibaba/1600155582218/1600155582218.html"
        (GetURL noDescriptionEnv
          ⟨⟨["alibaba", "alibaba/1600155582218"],
            [("alibaba/1600155582218/1600155582218.html", "<p>old</p>")]⟩, [], 0⟩
          "a.html").2.fs.files = some "<p>old</p>" ∧
      readFile "alibaba/1600155582218/1600155582218.html"
        (GetURL noDescriptionEnv ⟨⟨["alibaba"], []⟩, [], 0⟩ "a.html").2.fs.files = some "" :=
  have h := fun w => c3_non_200_opens_but_writes_nothing noDescriptionEnv w "a.html"
    ⟨200, "200 OK", .ok "<html>"⟩ _ bareGlobal bareProduct "1600155582218"
    ⟨404, "404 Not Found", .ok ""⟩ rfl rfl rfl rfl rfl (by decide)
  ⟨(h ⟨⟨["alibaba"], []⟩, [], 0⟩).1,
   (h ⟨⟨["alibaba", "alibaba/1600155582218"],
        [("alibaba/1600155582218/1600155582218.html", "<p>old</p>")]⟩, [], 0⟩).2.1 _ (by decide),
   (h ⟨⟨["alibaba"], []⟩, [], 0⟩).2.2.2.1 (by decide) (by decide) (by decide) (by decide)⟩

/-! ## C9 : optional and required sections of the report -/

theorem bind_panic {α β : Type} {r : Res α} {f : α → Res β} (hr : NoErr r)
    (hf : ∀ a, r = .ok a → f a = .panic) : (r >>= f) = .panic := by
  cases r with
  | ok a => exact hf a rfl
  | err e => exact absurd rfl (hr e)
  | panic => rfl

theorem noErr_bind {α β : Type} {r : Res α} {f : α → Res β} (hr : NoErr r)
    (hf : ∀ a, NoErr (f a)) : NoErr (r >>= f) := by
  cases r with
  | ok a => exact hf a
  | err e => exact absurd rfl (hr e)
  | panic => intro e h; cases h

theorem noErr_ok {α : Type} (a : α) : NoErr (Res.ok a) := by
  intro e h; cases h

theorem noErr_asMap (x : Option JSON) : NoErr (asMap x) := by
  intro e; unfold asMap; split <;> simp

theorem noErr_asSlice (x : Option JSON) : NoErr (asSlice x) := by
  intro e; unfold asSlice; split <;> simp

theorem noErr_asString (x : Option JSON) : NoErr (asString x) := by
  intro e; unfold asString; split <;> simp

theorem noErr_asFloat (x : Option JSON) : NoErr (asFloat x) := by
  intro e; unfold asFloat; split <;> simp

theorem noErr_appendLines (line : JSON → Res String) (hline : ∀ v, NoErr (line v)) :
    ∀ (vs : List JSON) (acc : String), NoErr (appendLines line acc vs)
  | [], acc => noErr_ok acc
  | v :: vs, acc => by
    unfold appendLines
    cases hv : line v with
    | ok l => exact noErr_appendLines line hline vs (acc ++ l)
    | err e => exact absurd hv (hline v e)
    | panic => intro e h; cases h

theorem noErr_ladderLine (env : Env) (v : JSON) : NoErr (ladderLine env v) :=
  noErr_bind (noErr_asMap _) fun _ => noErr_bind (noErr_asFloat _) fun _ =>
    noErr_bind (noErr_asFloat _) fun _ => noErr_bind (noErr_asString _) fun _ => noErr_ok _

theorem noErr_keyLine (v : JSON) : NoErr (keyLine v) :=
  noErr_bind (noErr_asMap _) fun _ => noErr_bind (noErr_asString _) fun _ =>
    noErr_bind (noErr_asString _) fun _ => noErr_ok _

theorem noErr_attrLine (v : JSON) : NoErr (attrLine v) :=
  noErr_bind (noErr_asMap _) fun _ => noErr_bind (noErr_asString _) fun _ =>
    noErr_bind (noErr_asString _) fun _ => noErr_ok _

theorem noErr_customLine (env : Env) (v : JSON) : NoErr (customLine env v) :=
  noErr_bind (noErr_asMap _) fun _ => noErr_bind (noErr_asString _) fun _ =>
    noErr_bind (noErr_asFloat _) fun _ => noErr_ok _

theorem noErr_priceValue (env : Env) (price : Obj) : NoErr (priceValue env price) := by
  unfold priceValue
  split
  · exact noErr_bind (noErr_asSlice _) fun _ => noErr_appendLines _ (noErr_ladderLine env) _ _
  · exact noErr_ok _

theorem noErr_keyProperties (product : Obj) : NoErr (keyProperties product) := by
  unfold keyProperties
  split
  · exact noErr_bind (noErr_asSlice _) fun _ => noErr_appendLines _ noErr_keyLine _ _
  · exact noErr_ok _

theorem noErr_supplyAbility (li : Obj) : NoErr (supplyAbility li) := by
  unfold supplyAbility
  split
  · exact noErr_asString _
  · exact noErr_ok _

theorem asMap_ok (x : Option JSON) (m : Obj) (h : asMap x = .ok m) : x = some (.obj m) := by
  unfold asMap at h
  split at h
  · cases h; rfl
  · cases h

theorem reportContent_required (env : Env) (globalData product : Obj)
    (keywords description : String) (h : RequiredMissing globalData product) :
    reportContent env globalData product keywords description = .panic := by
  unfold reportContent
  apply bind_panic (noErr_asString _)
  intro subject hsubject
  have h1 : lookup "subject" product ≠ none := by
    intro hn; rw [hn] at hsubject; cases hsubject
  apply bind_panic (noErr_asMap _)
  intro price hprice
  have h2 : lookup "price" product ≠ none := by
    intro hn; rw [hn] at hprice; cases hprice
  apply bind_panic (noErr_priceValue env price)
  intro pv _
  apply bind_panic (noErr_keyProperties product)
  intro kp _
  apply bind_panic (noErr_asSlice _)
  intro basics hbasics
  have h3 : lookup "productBasicProperties" product ≠ none := by
    intro hn; rw [hn] at hbasics; cases hbasics
  apply bind_panic (noErr_appendLines _ noErr_attrLine _ _)
  intro props _
  apply bind_panic (noErr_asMap _)
  intro trade htrade
  apply bind_panic (noErr_asMap _)
  intro li hli
  apply bind_panic (noErr_asSlice _)
  intro packs hpacks
  apply bind_panic (noErr_appendLines _ noErr_attrLine _ _)
  intro pk _
  apply bind_panic (noErr_supplyAbility li)
  intro sa _
  apply bind_panic (noErr_asSlice _)
  intro customs hcustoms
  exfalso
  rcases h with h | h | h | h | ⟨trade', li', ht, hl, hp⟩
  · exact h1 h
  · exact h2 h
  · exact h3 h
  · rw [h] at hcustoms; cases hcustoms
  · have e1 := asMap_ok _ _ htrade
    rw [ht] at e1
    cases e1
    have e2 := asMap_ok _ _ hli
    rw [hl] at e2
    cases e2
    rw [hp] at hpacks
    cases hpacks

/-- C9: (1) when `productLadderPrices`, `productKeyIndustryProperties` or
`supplyAbility` is absent, its block is computed without failure and is the
empty string; (2) when the other sections are well-formed the report is built
from the blocks, so an absent optional section leaves an empty block in it;
(3) when `subject`, `price`, `productBasicProperties`,
`productLightCustomizationList` or `productPackagingProperties` is absent,
building the report panics, and `GetURL` stops after opening the report file,
with nothing written to it. -/
theorem c9_optional_omitted_required_fatal (env : Env) (globalData product : Obj) :
    (∀ price, lookup "productLadderPrices" price = none → priceValue env price = .ok "") ∧
    (lookup "productKeyIndustryProperties" product = none → keyProperties product = .ok "") ∧
    (∀ li, lookup "supplyAbility" li = none → supplyAbility li = .ok "") ∧
    (∀ (keywords description subject pv kp props pk sa cl : String) (price trade li : Obj)
        (basics packs customs : List JSON),
      lookup "subject" product = some (.str subject) →
      lookup "price" product = some (.obj price) →
      priceValue env price = .ok pv →
      keyProperties product = .ok kp →
      lookup "productBasicProperties" product = some (.arr basics) →
      appendLines attrLine kp basics = .ok props →
      lookup "trade" globalData = some (.obj trade) →
      lookup "logisticInfo" trade = some (.obj li) →
      lookup "productPackagingProperties" li = some (.arr packs) →
      appendLines attrLine "" packs = .ok pk →
      supplyAbility li = .ok sa →
      lookup "productLightCustomizationList" product = some (.arr customs) →
      appendLines (customLine env) "" customs = .ok cl →
      reportContent env globalData product keywords description
        = .ok (renderReport subject keywords description pv props pk sa cl)) ∧
    (RequiredMissing globalData product →
      (∀ keywords description,
        reportContent env globalData product keywords description = .panic) ∧
      ∀ (w : World) (doc : List Node) (id : String),
        writeFiles env w doc globalData product id
          = (.panic, { w with fs := (openAppend (mkdir w.fs (dir ++ "/" ++ id))
              (dir ++ "/" ++ id ++ "/" ++ id ++ ".txt")).2 })) := by
  refine ⟨?_, ?_, ?_, ?_, ?_⟩
  · intro price h
    simp [priceValue, h]
  · intro h
    simp [keyProperties, h]
  · intro li h
    simp [supplyAbility, h]
  · intro keywords description subject pv kp props pk sa cl price trade li basics packs customs
      h1 h2 h3 h4 h5 h6 h7 h8 h9 h10 h11 h12 h13
    simp [reportContent, h1, h2, h3, h4, h5, h6, h7, h8, h9, h10, h11, h12, h13, asString, asMap,
      asSlice]
  · intro h
    refine ⟨fun k d => reportContent_required env globalData product k d h, ?_⟩
    intro w doc id
    simp [writeFiles, reportContent_required env globalData product _ _ h]

/-- C9 at `bareProduct`, whose optional sections are all absent, and at a
product without `subject`. -/
theorem c9_optional_omitted_required_fatal_witness :
    reportContent idleEnv bareGlobal bareProduct "k" "d"
        = .ok (renderReport "5D diamond painting" "k" "d" "" ">>> Material: Canvas\n" "" "" "") ∧
      reportContent idleEnv bareGlobal [("price", .obj [])] "k" "d" = .panic :=
  ⟨(c9_optional_omitted_required_fatal idleEnv bareGlobal bareProduct).2.2.2.1
      "k" "d" "5D diamond painting" "" "" ">>> Material: Canvas\n" "" "" "" []
      [("logisticInfo", .obj [("productPackagingProperties", .arr [])])]
      [("productPackagingProperties", .arr [])]
      [.obj [("attrName", .str "Material"), ("attrValue", .str "Canvas")]] [] []
      rfl rfl
      ((c9_optional_omitted_required_fatal idleEnv bareGlobal bareProduct).1 [] rfl)
      ((c9_optional_omitted_required_fatal idleEnv bareGlobal bareProduct).2.1 rfl)
      rfl (by decide) rfl rfl rfl (by decide)
      ((c9_optional_omitted_required_fatal idleEnv bareGlobal bareProduct).2.2.1 _ rfl)
      rfl (by decide),
   ((c9_optional_omitted_required_fatal idleEnv bareGlobal [("price", .obj [])]).2.2.2.2
      (Or.inl rfl)).1 "k" "d"⟩

end Kits
